import Mathlib

/-! # MBExtender plugin loader (`PluginLoader/PluginLoader.cpp`)

A shallow embedding of the plugin loader.  Every call that leaves the
translation unit (console output, `LoadLibrary`, `GetProcAddress`, calls through
function pointers, `hook.intercept`, ...) is recorded as an `Event` appended to
the trace carried by the loader state; what such a call returns is read from a
`World`, which plays the role of the operating system and of the host process.
-/

namespace PluginLoader

/-- Module handle returned by `LoadLibrary`; `0` is `NULL`. -/
abbrev HMODULE := Nat

/-- Function pointer as returned by `GetProcAddress` or `hook.intercept`; `0` is `NULL`. -/
abbrev FARPROC := Nat

/-- Source: `#define PLUGIN_DIR "plugins/"`. -/
def PLUGIN_DIR : String := "plugins/"

/-- Source: `#define PLUGIN_FILTER (PLUGIN_DIR "*.dll")`. -/
def PLUGIN_FILTER : String := PLUGIN_DIR ++ "*.dll"

/-- Source: `#define PLUGIN_DIR_LEN 9`. -/
def PLUGIN_DIR_LEN : Nat := 9

/-- Name of the support module passed to `LoadLibrary` in `loadMathLibrary`. -/
def MATH_LIB : String := "TorqueLib.dll"

/-- Windows SDK value of `PAGE_NOACCESS`. -/
def PAGE_NOACCESS : Nat := 0x01

/-- Windows SDK value of `PAGE_EXECUTE`. -/
def PAGE_EXECUTE : Nat := 0x10

/-- Windows SDK value of `MB_OK | MB_ICONERROR`. -/
def MB_OK_ICONERROR : Nat := 0x00 ||| 0x10

/-- The object built by `new Win32PluginInterface(&win32Interceptor, pathBuf)`:
its heap address and the path it was constructed with. -/
structure Win32PluginInterface where
  addr : Nat
  path : String
deriving DecidableEq, Repr

/-- Source: `struct LoadedPlugin`. -/
structure LoadedPlugin where
  path : String
  module : HMODULE
  pluginInterface : Win32PluginInterface
deriving DecidableEq, Repr

/-- The three replacement functions this file hands to `hook.intercept`. -/
inductive Replacement where
  | newNsInit
  | newParticleInit
  | newClientProcess
deriving DecidableEq, Repr

/-- The part of `MEMORY_BASIC_INFORMATION` that `verifyGame` reads. -/
structure MEMORY_BASIC_INFORMATION where
  Protect : Nat
deriving DecidableEq, Repr

/-- Windows SDK value of `sizeof(MEMORY_BASIC_INFORMATION)` in a 32-bit process. -/
def sizeofMemInfo : Nat := 28

/-- One externally visible action of the loader.  Console calls keep the format
string and the `%s` arguments apart. -/
inductive Event where
  | printf (fmt : String) (args : List String)
  | warnf (fmt : String) (args : List String)
  | errorf (fmt : String) (args : List String)
  | findFirstFile (filter : String)
  | findNextFile
  | findClose
  | loadLibrary (path : String)
  | getProcAddress (module : HMODULE) (name : String)
  | newPluginInterface (obj : Win32PluginInterface)
  | callMathInit (fn : FARPROC)
  | callInstallOverrides (fn : FARPROC)
  | callPluginInit (fn : FARPROC) (plugin : Win32PluginInterface)
  | setBoolVariable (name : String) (value : Bool)
  | originalNsInit (fn : FARPROC)
  | originalParticleInit (fn : FARPROC)
  | originalClientProcess (fn : FARPROC) (timeDelta : Nat)
  | executeProcessList (timeDelta : Nat)
  | processCallback (fn : FARPROC) (timeDelta : Nat)
  | virtualQuery (address : Nat) (length : Nat)
  | memcmp (address : Nat) (length : Nat)
  | messageBox (text : String) (caption : String) (flags : Nat)
  | intercept (target : FARPROC) (replacement : Replacement)
deriving DecidableEq, Repr

/-- What the operating system and the host process answer.

* `listing`: the `cFileName` values that `FindFirstFile(PLUGIN_FILTER, ..)` and
  the following `FindNextFile` calls yield, in order.  `cFileName` is a
  `CHAR[MAX_PATH]` buffer, so `sprintf_s` into `pathBuf[PLUGIN_DIR_LEN + MAX_PATH]`
  always fits.
* `loadLibrary`, `getProcAddress`: results of the Win32 calls of the same name.
* `virtualQuery`: the returned byte count and the filled-in structure.
* `memory`: the byte stored at an address of the host image.
* `intercept`: what `hook.intercept(target, replacement)` returns.
* `tgeNamespaceInit`, `tgeParticleEngineInit`, `tgeClientProcess`: addresses of
  `TGE::Namespace::init`, `TGE::ParticleEngine::init` and `TGE::clientProcess`.
* `processList`: the per-frame callbacks registered through the plugin interfaces,
  in registration order. -/
structure World where
  listing : List String
  loadLibrary : String → HMODULE
  getProcAddress : HMODULE → String → FARPROC
  virtualQuery : Nat → Nat × MEMORY_BASIC_INFORMATION
  memory : Nat → Nat
  intercept : FARPROC → Replacement → FARPROC
  tgeNamespaceInit : FARPROC
  tgeParticleEngineInit : FARPROC
  tgeClientProcess : FARPROC
  processList : List FARPROC

/-- The file-scope variables of `PluginLoader.cpp`, the heap allocation counter
and the trace of events so far. -/
structure Loader where
  mathLib : HMODULE
  loadedPlugins : List LoadedPlugin
  originalNsInit : FARPROC
  originalParticleInit : FARPROC
  originalClientProcess : FARPROC
  heapTop : Nat
  trace : List Event

/-- State after static initialisation: `mathLib` is `NULL`, `loadedPlugins` is
empty and the three `original...` pointers hold the host functions. -/
def Loader.initial (w : World) : Loader :=
  { mathLib := 0
    loadedPlugins := []
    originalNsInit := w.tgeNamespaceInit
    originalParticleInit := w.tgeParticleEngineInit
    originalClientProcess := w.tgeClientProcess
    heapTop := 0
    trace := [] }

/-- Record one event at the end of the trace. -/
def Loader.emit (s : Loader) (e : Event) : Loader :=
  { s with trace := s.trace ++ [e] }

/-- Body of the `while` loop of `loadPlugins` for the entry `fileInfo`, with
`find` the entries the search handle has yet to yield. -/
def loadPluginsLoop (w : World) (fileInfo : String) (find : List String) (s : Loader) : Loader :=
  let pathBuf := PLUGIN_DIR ++ fileInfo
  let s := s.emit (.printf "   Loading %s" [pathBuf])
  let s := s.emit (.loadLibrary pathBuf)
  let plugin := w.loadLibrary pathBuf
  let s :=
    if plugin ≠ 0 then
      let obj : Win32PluginInterface := { addr := s.heapTop, path := pathBuf }
      let s := { s with heapTop := s.heapTop + 1 }.emit (.newPluginInterface obj)
      { s with loadedPlugins := s.loadedPlugins ++ [{ path := pathBuf, module := plugin, pluginInterface := obj }] }
    else
      s.emit (.errorf "   Unable to load %s!" [pathBuf])
  let s := s.emit .findNextFile
  match find with
  | [] => s.emit .findClose
  | next :: rest => loadPluginsLoop w next rest s

/-- Source: `loadPlugins`. -/
def loadPlugins (w : World) (s : Loader) : Loader :=
  let s := s.emit (.findFirstFile PLUGIN_FILTER)
  match w.listing with
  | [] => s
  | first :: rest => loadPluginsLoop w first rest s

/-- One iteration of the range-for of `callPluginInit`. -/
def callPluginInitBody (w : World) (fnName : String) (plugin : LoadedPlugin) (s : Loader) : Loader :=
  let s := s.emit (.printf "   Initializing %s" [plugin.path])
  let s := s.emit (.getProcAddress plugin.module fnName)
  let initFunc := w.getProcAddress plugin.module fnName
  if initFunc ≠ 0 then
    s.emit (.callPluginInit initFunc plugin.pluginInterface)
  else
    s.emit (.warnf "   WARNING: %s does not have a %s() function!" [plugin.path, fnName])

/-- Source: `callPluginInit`. -/
def callPluginInit (w : World) (fnName : String) (s : Loader) : Loader :=
  s.loadedPlugins.foldl (fun acc plugin => callPluginInitBody w fnName plugin acc) s

/-- Source: `pluginPreInit`. -/
def pluginPreInit (w : World) (s : Loader) : Loader :=
  if s.loadedPlugins.length = 0 then s
  else
    let s := s.emit (.printf "MBExtender: Initializing Plugins, Stage 1:" [])
    let s := callPluginInit w "preEngineInit" s
    s.emit (.printf "" [])

/-- Source: `pluginPostInit`. -/
def pluginPostInit (w : World) (s : Loader) : Loader :=
  if s.loadedPlugins.length = 0 then s
  else
    let s := s.emit (.printf "MBExtender: Initializing Plugins, Stage 2:" [])
    let s := callPluginInit w "postEngineInit" s
    s.emit (.printf "" [])

/-- `std::string::find_last_of(c)` on the characters of a string; `none` is `npos`. -/
def find_last_of : List Char → Char → Option Nat
  | [], _ => none
  | x :: xs, c =>
    match find_last_of xs c with
    | some i => some (i + 1)
    | none => if x = c then some 0 else none

/-- The name `setPluginVariables` computes for a plugin path, or `none` when
`find_last_of` yields `npos` and `erase` throws `std::out_of_range`. -/
def pluginVarName (path : String) : Option String :=
  match find_last_of path.data '.' with
  | none => none
  | some index => some ("Plugin::Loaded" ++ String.mk (path.data.take index))

/-- The range-for of `setPluginVariables` over the plugins still to visit.  An
exception leaves the loop with the state reached so far. -/
def setPluginVariablesLoop : List LoadedPlugin → Loader → Except Loader Loader
  | [], s => .ok s
  | plugin :: rest, s =>
    match pluginVarName plugin.path with
    | none => .error s
    | some varName => setPluginVariablesLoop rest (s.emit (.setBoolVariable varName true))

/-- Source: `setPluginVariables`. -/
def setPluginVariables (s : Loader) : Except Loader Loader :=
  setPluginVariablesLoop s.loadedPlugins s

/-- Source: `loadMathLibrary`. -/
def loadMathLibrary (w : World) (s : Loader) : Loader :=
  let s := s.emit (.printf "   Initializing memory interface" [])
  let s := s.emit (.loadLibrary MATH_LIB)
  let s := { s with mathLib := w.loadLibrary MATH_LIB }
  let fail := fun (t : Loader) =>
    t.emit (.errorf "   Unable to load TorqueLib.dll! Some plugins may fail to load!" [])
  if s.mathLib ≠ 0 then
    let s := s.emit (.getProcAddress s.mathLib "init")
    let initFunc := w.getProcAddress s.mathLib "init"
    if initFunc ≠ 0 then
      s.emit (.callMathInit initFunc)
    else fail s
  else fail s

/-- Source: `installUserOverrides`. -/
def installUserOverrides (w : World) (s : Loader) : Loader :=
  if s.mathLib = 0 then s
  else
    let s := s.emit (.printf "   Installing user overrides" [])
    let s := s.emit (.getProcAddress s.mathLib "installUserOverrides")
    let installFunc := w.getProcAddress s.mathLib "installUserOverrides"
    if installFunc ≠ 0 then
      s.emit (.callInstallOverrides installFunc)
    else
      s.emit (.errorf "   TorqueLib.dll is out-of-date and does not support user overrides!" [])

/-- Source: `newNsInit`. -/
def newNsInit (w : World) (s : Loader) : Loader :=
  let s := s.emit (.originalNsInit s.originalNsInit)
  let s := s.emit (.printf "MBExtender Init:" [])
  let s := loadMathLibrary w s
  let s := loadPlugins w s
  let s := installUserOverrides w s
  let s := s.emit (.printf "" [])
  pluginPreInit w s

/-- Source: `newParticleInit`. -/
def newParticleInit (w : World) (s : Loader) : Except Loader Loader :=
  let s := s.emit (.originalParticleInit s.originalParticleInit)
  let s := pluginPostInit w s
  setPluginVariables s

/-- Modelled from the spec: `Win32PluginInterface::executeProcessList`, defined in
`Win32PluginInterface.cpp` which is not part of the sources at hand.  The spec
says it executes every registered per-plugin per-frame callback, in registration
order, with the current tick's time delta. -/
def executeProcessList (w : World) (timeDelta : Nat) (s : Loader) : Loader :=
  w.processList.foldl (fun acc fn => acc.emit (.processCallback fn timeDelta))
    (s.emit (.executeProcessList timeDelta))

/-- Source: `newClientProcess`. -/
def newClientProcess (w : World) (timeDelta : Nat) (s : Loader) : Loader :=
  let s := executeProcessList w timeDelta s
  s.emit (.originalClientProcess s.originalClientProcess timeDelta)

/-- Source: `testPointer` in `verifyGame`. -/
def testPointer : Nat := 0x6796C4

/-- Source: `testStr` in `verifyGame`. -/
def testStr : String := "Marble Blast"

/-- `strlen` of a string without embedded NUL. -/
def strlen (str : String) : Nat := str.data.length

/-- The `n` bytes of host memory starting at `address`. -/
def readBytes (w : World) (address n : Nat) : List Nat :=
  (List.range n).map (fun i => w.memory (address + i))

/-- The bytes of an ASCII string literal. -/
def strBytes (str : String) : List Nat := str.data.map Char.toNat

/-- `memcmp` over two buffers of the same length: the sign of the first difference. -/
def memcmp : List Nat → List Nat → Int
  | a :: as, b :: bs => if a = b then memcmp as bs else if a < b then -1 else 1
  | _, _ => 0

/-- Source: `verifyGame`. -/
def verifyGame (w : World) (s : Loader) : Bool × Loader :=
  let s := s.emit (.virtualQuery testPointer sizeofMemInfo)
  let memInfo := (w.virtualQuery testPointer).2
  if (w.virtualQuery testPointer).1 ≠ sizeofMemInfo then (false, s)
  else if memInfo.Protect = 0 ∨ memInfo.Protect &&& PAGE_NOACCESS ≠ 0
      ∨ memInfo.Protect &&& PAGE_EXECUTE ≠ 0 then (false, s)
  else
    let s := s.emit (.memcmp testPointer (strlen testStr))
    if memcmp (readBytes w testPointer (strlen testStr)) (strBytes testStr) ≠ 0 then (false, s)
    else (true, s)

/-- Source: `initPluginLoader`, built without `DISABLE_NETWORK`.  The `DWORD`
result is `1` for `return true` and `0` for `return false`. -/
def initPluginLoader (w : World) (s : Loader) : Nat × Loader :=
  let r := verifyGame w s
  let s := r.2
  if r.1 = false then
    (0, s.emit (.messageBox
      "MBExtender is only compatible with the full version of Marble Blast Gold."
      "MBExtender" MB_OK_ICONERROR))
  else
    let s := s.emit (.intercept w.tgeNamespaceInit .newNsInit)
    let s := { s with originalNsInit := w.intercept w.tgeNamespaceInit .newNsInit }
    let s := s.emit (.intercept w.tgeParticleEngineInit .newParticleInit)
    let s := { s with originalParticleInit := w.intercept w.tgeParticleEngineInit .newParticleInit }
    let s := s.emit (.intercept w.tgeClientProcess .newClientProcess)
    let s := { s with originalClientProcess := w.intercept w.tgeClientProcess .newClientProcess }
    (1, s)


/-! ## Observations on traces -/

/-- The path announced by a `"   Initializing %s"` message. -/
def initMessageOf : Event → Option String
  | .printf fmt [p] => if fmt = "   Initializing %s" then some p else none
  | _ => none

/-- The module a `GetProcAddress` call for `name` looks in. -/
def lookupOf (name : String) : Event → Option HMODULE
  | .getProcAddress m n => if n = name then some m else none
  | _ => none

/-- The entry point and the interface of a call into a plugin. -/
def handedOf : Event → Option (FARPROC × Win32PluginInterface)
  | .callPluginInit fn obj => some (fn, obj)
  | _ => none

/-- The object of a `new Win32PluginInterface`. -/
def createdOf : Event → Option Win32PluginInterface
  | .newPluginInterface obj => some obj
  | _ => none

/-- The path of a `LoadLibrary` call. -/
def loadAttemptOf : Event → Option String
  | .loadLibrary p => some p
  | _ => none

/-- The filter of a `FindFirstFile` call. -/
def searchOf : Event → Option String
  | .findFirstFile filter => some filter
  | _ => none

/-- Name and value of a `setBoolVariable` call. -/
def flagOf : Event → Option (String × Bool)
  | .setBoolVariable n v => some (n, v)
  | _ => none

/-- The `%s` arguments of a warning. -/
def warningOf : Event → Option (List String)
  | .warnf _ args => some args
  | _ => none

/-- The format string of an error diagnostic. -/
def errorOf : Event → Option String
  | .errorf fmt _ => some fmt
  | _ => none

/-- The pointer called by `initFunc()` in `loadMathLibrary`. -/
def mathInitOf : Event → Option FARPROC
  | .callMathInit fn => some fn
  | _ => none

/-- The pointer called by `installFunc(&win32Interceptor)` in `installUserOverrides`. -/
def overrideCallOf : Event → Option FARPROC
  | .callInstallOverrides fn => some fn
  | _ => none

/-- Target and replacement of a `hook.intercept` call. -/
def interceptOf : Event → Option (FARPROC × Replacement)
  | .intercept target replacement => some (target, replacement)
  | _ => none

/-- Text, caption and flags of a `MessageBox` call. -/
def messageBoxOf : Event → Option (String × String × Nat)
  | .messageBox text caption flags => some (text, caption, flags)
  | _ => none

/-- Paths announced by `"   Initializing %s"`, in order: the plugins `callPluginInit` visits. -/
def initMessages (T : List Event) : List String := T.filterMap initMessageOf

/-- Modules looked up for the export `name`, in order. -/
def lookupsOf (name : String) (T : List Event) : List HMODULE := T.filterMap (lookupOf name)

/-- Plugin entry points called, each with the interface it was handed, in order. -/
def handed (T : List Event) : List (FARPROC × Win32PluginInterface) := T.filterMap handedOf

/-- Plugin interfaces constructed, in order. -/
def created (T : List Event) : List Win32PluginInterface := T.filterMap createdOf

/-- Paths passed to `LoadLibrary`, in order. -/
def loadAttempts (T : List Event) : List String := T.filterMap loadAttemptOf

/-- Filters passed to `FindFirstFile`, in order. -/
def searches (T : List Event) : List String := T.filterMap searchOf

/-- Boolean console variables set, in order. -/
def flagsSet (T : List Event) : List (String × Bool) := T.filterMap flagOf

/-- Warnings logged, as the `%s` arguments of each, in order. -/
def warnings (T : List Event) : List (List String) := T.filterMap warningOf

/-- Error diagnostics logged, as format strings, in order. -/
def errors (T : List Event) : List String := T.filterMap errorOf

/-- Calls of the support module's `init`, in order. -/
def mathInits (T : List Event) : List FARPROC := T.filterMap mathInitOf

/-- Calls of the support module's `installUserOverrides`, in order. -/
def overrideCalls (T : List Event) : List FARPROC := T.filterMap overrideCallOf

/-- Calls of `hook.intercept`, in order. -/
def intercepts (T : List Event) : List (FARPROC × Replacement) := T.filterMap interceptOf

/-- Calls of `MessageBox`, in order. -/
def messageBoxes (T : List Event) : List (String × String × Nat) := T.filterMap messageBoxOf

/-- No event satisfying `p` occurs at or after the first event satisfying `q`:
every `p` event comes strictly before every `q` event. -/
def allBefore (p q : Event → Bool) (T : List Event) : Bool :=
  (T.dropWhile (fun e => !q e)).all (fun e => !p e)

/-- The state an invocation ends in, whether it returned or threw. -/
def finalState : Except Loader Loader → Loader
  | .ok s => s
  | .error s => s

/-- Events `newNsInit` appends to the trace of `s`. -/
def eventsOfNsInit (w : World) (s : Loader) : List Event :=
  (newNsInit w s).trace.drop s.trace.length

/-- Events `newParticleInit` appends to the trace of `s`. -/
def eventsOfParticleInit (w : World) (s : Loader) : List Event :=
  (finalState (newParticleInit w s)).trace.drop s.trace.length

/-- Events `loadMathLibrary` appends to the trace of `s`. -/
def eventsOfLoadMathLibrary (w : World) (s : Loader) : List Event :=
  (loadMathLibrary w s).trace.drop s.trace.length

/-- Events `pluginPreInit` appends to the trace of `s`. -/
def eventsOfPreInit (w : World) (s : Loader) : List Event :=
  (pluginPreInit w s).trace.drop s.trace.length

/-- Events `pluginPostInit` appends to the trace of `s`. -/
def eventsOfPostInit (w : World) (s : Loader) : List Event :=
  (pluginPostInit w s).trace.drop s.trace.length

/-- Events `initPluginLoader` appends to the trace of `s`. -/
def eventsOfInitPluginLoader (w : World) (s : Loader) : List Event :=
  (initPluginLoader w s).2.trace.drop s.trace.length

/-- Events `verifyGame` appends to the trace of `s`. -/
def eventsOfVerifyGame (w : World) (s : Loader) : List Event :=
  (verifyGame w s).2.trace.drop s.trace.length

/-! ## Steps of the bring-up sequence -/

/-- Steps of `loadMathLibrary`. -/
def isMathStep : Event → Bool
  | .printf fmt _ => fmt == "   Initializing memory interface"
  | .loadLibrary p => p == MATH_LIB
  | .getProcAddress _ n => n == "init"
  | .callMathInit _ => true
  | .errorf fmt _ => fmt == "   Unable to load TorqueLib.dll! Some plugins may fail to load!"
  | _ => false

/-- Steps of `loadPlugins`: directory search, plugin load attempts and their outcome. -/
def isDiscoveryStep : Event → Bool
  | .printf fmt _ => fmt == "   Loading %s"
  | .findFirstFile _ => true
  | .findNextFile => true
  | .findClose => true
  | .loadLibrary p => p != MATH_LIB
  | .newPluginInterface _ => true
  | .errorf fmt _ => fmt == "   Unable to load %s!"
  | _ => false

/-- Steps of `installUserOverrides`. -/
def isOverrideStep : Event → Bool
  | .printf fmt _ => fmt == "   Installing user overrides"
  | .getProcAddress _ n => n == "installUserOverrides"
  | .callInstallOverrides _ => true
  | .errorf fmt _ => fmt == "   TorqueLib.dll is out-of-date and does not support user overrides!"
  | _ => false

/-- Steps of `callPluginInit` for the export `fnName`. -/
def isStageStep (fnName : String) : Event → Bool
  | .printf fmt _ => fmt == "   Initializing %s"
  | .getProcAddress _ n => n == fnName
  | .callPluginInit _ _ => true
  | .warnf _ _ => true
  | _ => false

/-- Calls of `TGE::Con::setBoolVariable`. -/
def isFlagStep : Event → Bool
  | .setBoolVariable _ _ => true
  | _ => false

/-- Calls through `originalNsInit`. -/
def isOriginalNsInit : Event → Bool
  | .originalNsInit _ => true
  | _ => false

/-- Calls through `originalParticleInit`. -/
def isOriginalParticleInit : Event → Bool
  | .originalParticleInit _ => true
  | _ => false

/-- Calls through `originalClientProcess`. -/
def isOriginalClientProcess : Event → Bool
  | .originalClientProcess _ _ => true
  | _ => false

/-- Calls of `Win32PluginInterface::executeProcessList`. -/
def isExecuteProcessList : Event → Bool
  | .executeProcessList _ => true
  | _ => false

/-! ## Closed forms of the loops -/

/-- Records `loadPlugins` appends for the files listed, the first allocation
being at `heap`. -/
def loadedFrom (w : World) : Nat → List String → List LoadedPlugin
  | _, [] => []
  | heap, f :: rest =>
    if w.loadLibrary (PLUGIN_DIR ++ f) ≠ 0 then
      { path := PLUGIN_DIR ++ f, module := w.loadLibrary (PLUGIN_DIR ++ f),
        pluginInterface := { addr := heap, path := PLUGIN_DIR ++ f } } :: loadedFrom w (heap + 1) rest
    else loadedFrom w heap rest

/-- Events of the loop of `loadPlugins` over the files listed. -/
def loadEventsFrom (w : World) : Nat → List String → List Event
  | _, [] => [.findClose]
  | heap, f :: rest =>
    [.printf "   Loading %s" [PLUGIN_DIR ++ f], .loadLibrary (PLUGIN_DIR ++ f)] ++
    (if w.loadLibrary (PLUGIN_DIR ++ f) ≠ 0 then
      .newPluginInterface { addr := heap, path := PLUGIN_DIR ++ f } :: .findNextFile ::
        loadEventsFrom w (heap + 1) rest
    else
      .errorf "   Unable to load %s!" [PLUGIN_DIR ++ f] :: .findNextFile ::
        loadEventsFrom w heap rest)

/-- Events of one iteration of `callPluginInit` for one plugin. -/
def visitEvents (w : World) (fnName : String) (plugin : LoadedPlugin) : List Event :=
  [.printf "   Initializing %s" [plugin.path], .getProcAddress plugin.module fnName,
    if w.getProcAddress plugin.module fnName ≠ 0 then
      .callPluginInit (w.getProcAddress plugin.module fnName) plugin.pluginInterface
    else .warnf "   WARNING: %s does not have a %s() function!" [plugin.path, fnName]]

/-- Events of `callPluginInit` over a list of plugins. -/
def initEvents (w : World) (fnName : String) : List LoadedPlugin → List Event
  | [] => []
  | plugin :: rest => visitEvents w fnName plugin ++ initEvents w fnName rest

/-- Events of `pluginPreInit` or `pluginPostInit` over a list of plugins. -/
def stageEvents (w : World) (banner fnName : String) (plugins : List LoadedPlugin) : List Event :=
  if plugins.length = 0 then []
  else .printf banner [] :: (initEvents w fnName plugins ++ [.printf "" []])

/-- Events of `loadMathLibrary`. -/
def mathEvents (w : World) : List Event :=
  [.printf "   Initializing memory interface" [], .loadLibrary MATH_LIB] ++
  (if w.loadLibrary MATH_LIB ≠ 0 then
    .getProcAddress (w.loadLibrary MATH_LIB) "init" ::
      (if w.getProcAddress (w.loadLibrary MATH_LIB) "init" ≠ 0 then
        [.callMathInit (w.getProcAddress (w.loadLibrary MATH_LIB) "init")]
      else [.errorf "   Unable to load TorqueLib.dll! Some plugins may fail to load!" []])
  else [.errorf "   Unable to load TorqueLib.dll! Some plugins may fail to load!" []])

/-- Events of `loadPlugins`, the first allocation being at `heap`. -/
def discoveryEvents (w : World) (heap : Nat) : List Event :=
  .findFirstFile PLUGIN_FILTER ::
    (match w.listing with
      | [] => []
      | first :: rest => loadEventsFrom w heap (first :: rest))

/-- Events of `installUserOverrides` when `mathLib` holds `lib`. -/
def overrideEvents (w : World) (lib : HMODULE) : List Event :=
  if lib = 0 then []
  else
    [.printf "   Installing user overrides" [], .getProcAddress lib "installUserOverrides",
      if w.getProcAddress lib "installUserOverrides" ≠ 0 then
        .callInstallOverrides (w.getProcAddress lib "installUserOverrides")
      else .errorf "   TorqueLib.dll is out-of-date and does not support user overrides!" []]

/-- Events of `setPluginVariables` over a list of plugins, up to a throw if any. -/
def flagEvents : List LoadedPlugin → List Event
  | [] => []
  | plugin :: rest =>
    match pluginVarName plugin.path with
    | none => []
    | some varName => .setBoolVariable varName true :: flagEvents rest

/-- Events of `newNsInit` started in state `s`. -/
def nsInitEvents (w : World) (s : Loader) : List Event :=
  .originalNsInit s.originalNsInit :: .printf "MBExtender Init:" [] ::
    (mathEvents w ++ (discoveryEvents w s.heapTop ++ (overrideEvents w (w.loadLibrary MATH_LIB) ++
      .printf "" [] ::
        stageEvents w "MBExtender: Initializing Plugins, Stage 1:" "preEngineInit"
          (s.loadedPlugins ++ loadedFrom w s.heapTop w.listing))))

/-- Events of `newParticleInit` started in state `s`. -/
def particleInitEvents (w : World) (s : Loader) : List Event :=
  .originalParticleInit s.originalParticleInit ::
    (stageEvents w "MBExtender: Initializing Plugins, Stage 2:" "postEngineInit" s.loadedPlugins ++
      flagEvents s.loadedPlugins)

/-- The entry point a plugin exports under `fnName` paired with its interface, if any. -/
def exported (w : World) (fnName : String) (plugin : LoadedPlugin) :
    Option (FARPROC × Win32PluginInterface) :=
  if w.getProcAddress plugin.module fnName ≠ 0 then
    some (w.getProcAddress plugin.module fnName, plugin.pluginInterface)
  else none

/-- The arguments of the warning logged for a plugin lacking `fnName`, if it lacks it. -/
def missing (w : World) (fnName : String) (plugin : LoadedPlugin) : Option (List String) :=
  if w.getProcAddress plugin.module fnName ≠ 0 then none else some [plugin.path, fnName]

/-- Paths of the listed files whose `LoadLibrary` succeeded, in listing order. -/
def succeededPaths (w : World) : List String :=
  (w.listing.filter (fun f => w.loadLibrary (PLUGIN_DIR ++ f) ≠ 0)).map (fun f => PLUGIN_DIR ++ f)

/-- The entry point `fnName` of the module loaded from the path of `obj`, paired
with `obj`, when that module exports it. -/
def entryFor (w : World) (fnName : String) (obj : Win32PluginInterface) :
    Option (FARPROC × Win32PluginInterface) :=
  if w.getProcAddress (w.loadLibrary obj.path) fnName ≠ 0 then
    some (w.getProcAddress (w.loadLibrary obj.path) fnName, obj)
  else none

/-- The region checks of `verifyGame` as the claim words them: the query
succeeds and the protection value is non-zero with neither the no-access bit
(bit 0) nor the execute-only bit (bit 4) set. -/
def regionReadable (w : World) : Prop :=
  (w.virtualQuery 0x6796C4).1 = sizeofMemInfo
    ∧ (w.virtualQuery 0x6796C4).2.Protect ≠ 0
    ∧ (w.virtualQuery 0x6796C4).2.Protect.testBit 0 = false
    ∧ (w.virtualQuery 0x6796C4).2.Protect.testBit 4 = false

/-- File stem in the usual sense: the path with everything up to the last slash
or backslash (code point 92) and everything from the last `.` removed. -/
def fileStem (path : String) : String :=
  let name := (path.data.reverse.takeWhile (fun c => c != '/' && c != Char.ofNat 92)).reverse
  match find_last_of name '.' with
  | none => String.mk name
  | some index => String.mk (name.take index)

/-! ## Sample worlds -/

/-- A compatible host with three files in the plugin directory: `a.dll` loads and
exports only `postEngineInit`, `bad.dll` fails to load, `c.dll` loads and exports
both entry points; the support module loads and exports both of its functions. -/
def sampleWorld : World :=
  { listing := ["a.dll", "bad.dll", "c.dll"]
    loadLibrary := fun p =>
      if p = "plugins/a.dll" then 0x10000000
      else if p = "plugins/c.dll" then 0x20000000
      else if p = "TorqueLib.dll" then 0x30000000
      else 0
    getProcAddress := fun m n =>
      if m = 0x10000000 ∧ n = "postEngineInit" then 0x10002000
      else if m = 0x20000000 ∧ n = "preEngineInit" then 0x20001000
      else if m = 0x20000000 ∧ n = "postEngineInit" then 0x20002000
      else if m = 0x30000000 ∧ n = "init" then 0x30001000
      else if m = 0x30000000 ∧ n = "installUserOverrides" then 0x30002000
      else 0
    virtualQuery := fun _ => (28, { Protect := 0x02 })
    memory := fun a => ([77, 97, 114, 98, 108, 101, 32, 66, 108, 97, 115, 116].getD (a - 0x6796C4) 0)
    intercept := fun target _ => target + 0x40000000
    tgeNamespaceInit := 0x401000
    tgeParticleEngineInit := 0x402000
    tgeClientProcess := 0x403000
    processList := [0x10003000, 0x20003000] }

/-- The sample world without a loadable support module. -/
def sampleWorldNoMath : World :=
  { sampleWorld with
    loadLibrary := fun p => if p = "TorqueLib.dll" then 0 else sampleWorld.loadLibrary p }

/-- The sample world with a host image that holds other bytes at the test address. -/
def sampleWorldOtherHost : World :=
  { sampleWorld with memory := fun _ => 0 }

/-- A world whose plugin directory holds the single file `foo.dll`, which loads. -/
def fooWorld : World :=
  { sampleWorld with
    listing := ["foo.dll"]
    loadLibrary := fun p => if p = "plugins/foo.dll" then 0x10000000 else 0 }

/-- Steps of `verifyGame`. -/
def isGuardStep : Event → Bool
  | .virtualQuery _ _ => true
  | .memcmp _ _ => true
  | _ => false

/-- Events `newClientProcess` appends to the trace of `s`. -/
def eventsOfClientProcess (w : World) (timeDelta : Nat) (s : Loader) : List Event :=
  (newClientProcess w timeDelta s).trace.drop s.trace.length

/-- The sample world in which the module of `a.dll` exports nothing at all. -/
def sampleWorldBareFirst : World :=
  { sampleWorld with
    getProcAddress := fun m n => if m = 0x10000000 then 0 else sampleWorld.getProcAddress m n }

/-- The file name `stem.ext` of a listed file given as the pair `(stem, ext)`. -/
def fileName (n : String × String) : String := n.1 ++ "." ++ n.2

/-- The flag `setPluginVariables` sets for a file `stem.ext` of the plugin
directory: `Plugin::Loaded` followed by the directory and the stem. -/
def flagFor (n : String × String) : String × Bool :=
  ("Plugin::Loaded" ++ (PLUGIN_DIR ++ n.1), true)

/-! ## The loops in closed form -/

theorem loadPluginsLoop_eq (w : World) (find : List String) :
    ∀ (fileInfo : String) (s : Loader),
      loadPluginsLoop w fileInfo find s =
        { s with
          loadedPlugins := s.loadedPlugins ++ loadedFrom w s.heapTop (fileInfo :: find)
          heapTop := s.heapTop + (loadedFrom w s.heapTop (fileInfo :: find)).length
          trace := s.trace ++ loadEventsFrom w s.heapTop (fileInfo :: find) } := by
  induction find with
  | nil =>
    intro f s
    unfold loadPluginsLoop
    by_cases h : w.loadLibrary (PLUGIN_DIR ++ f) = 0
    · simp [h, loadedFrom, loadEventsFrom, Loader.emit]
    · simp [h, loadedFrom, loadEventsFrom, Loader.emit]
  | cons g rest ih =>
    intro f s
    rw [loadPluginsLoop]
    by_cases h : w.loadLibrary (PLUGIN_DIR ++ f) = 0
    · simp only [h, ne_eq, not_true_eq_false, ↓reduceIte]
      rw [ih]
      simp [h, loadedFrom, loadEventsFrom, Loader.emit]
    · simp only [h, ne_eq, not_false_eq_true, ↓reduceIte]
      rw [ih]
      simp [h, loadedFrom, loadEventsFrom, Loader.emit, Nat.add_assoc, Nat.add_comm 1]

theorem loadPlugins_eq (w : World) (s : Loader) :
    loadPlugins w s =
      { s with
        loadedPlugins := s.loadedPlugins ++ loadedFrom w s.heapTop w.listing
        heapTop := s.heapTop + (loadedFrom w s.heapTop w.listing).length
        trace := s.trace ++ discoveryEvents w s.heapTop } := by
  unfold loadPlugins discoveryEvents
  cases hl : w.listing with
  | nil => simp [loadedFrom, Loader.emit]
  | cons f rest => simp [loadPluginsLoop_eq, Loader.emit]

theorem callPluginInit_fold (w : World) (fnName : String) (plugins : List LoadedPlugin) :
    ∀ s : Loader,
      plugins.foldl (fun acc plugin => callPluginInitBody w fnName plugin acc) s =
        { s with trace := s.trace ++ initEvents w fnName plugins } := by
  induction plugins with
  | nil => intro s; simp [initEvents]
  | cons p rest ih =>
    intro s
    rw [List.foldl_cons, ih]
    by_cases h : w.getProcAddress p.module fnName = 0
    · simp [callPluginInitBody, initEvents, visitEvents, Loader.emit, h]
    · simp [callPluginInitBody, initEvents, visitEvents, Loader.emit, h]

theorem callPluginInit_eq (w : World) (fnName : String) (s : Loader) :
    callPluginInit w fnName s =
      { s with trace := s.trace ++ initEvents w fnName s.loadedPlugins } :=
  callPluginInit_fold w fnName s.loadedPlugins s

theorem pluginPreInit_eq (w : World) (s : Loader) :
    pluginPreInit w s =
      { s with trace := s.trace ++
          stageEvents w "MBExtender: Initializing Plugins, Stage 1:" "preEngineInit" s.loadedPlugins } := by
  unfold pluginPreInit stageEvents
  by_cases h : s.loadedPlugins.length = 0
  · simp [h]
  · simp [h, callPluginInit_eq, Loader.emit]

theorem pluginPostInit_eq (w : World) (s : Loader) :
    pluginPostInit w s =
      { s with trace := s.trace ++
          stageEvents w "MBExtender: Initializing Plugins, Stage 2:" "postEngineInit" s.loadedPlugins } := by
  unfold pluginPostInit stageEvents
  by_cases h : s.loadedPlugins.length = 0
  · simp [h]
  · simp [h, callPluginInit_eq, Loader.emit]

theorem loadMathLibrary_eq (w : World) (s : Loader) :
    loadMathLibrary w s =
      { s with mathLib := w.loadLibrary MATH_LIB, trace := s.trace ++ mathEvents w } := by
  unfold loadMathLibrary mathEvents
  by_cases h : w.loadLibrary MATH_LIB = 0
  · simp [h, Loader.emit]
  · by_cases h2 : w.getProcAddress (w.loadLibrary MATH_LIB) "init" = 0
    · simp [h, h2, Loader.emit]
    · simp [h, h2, Loader.emit]

theorem installUserOverrides_eq (w : World) (s : Loader) :
    installUserOverrides w s =
      { s with trace := s.trace ++ overrideEvents w s.mathLib } := by
  unfold installUserOverrides overrideEvents
  by_cases h : s.mathLib = 0
  · cases s
    simp_all
  · by_cases h2 : w.getProcAddress s.mathLib "installUserOverrides" = 0
    · simp [h, h2, Loader.emit]
    · simp [h, h2, Loader.emit]

theorem newNsInit_eq (w : World) (s : Loader) :
    newNsInit w s =
      { s with
        mathLib := w.loadLibrary MATH_LIB
        loadedPlugins := s.loadedPlugins ++ loadedFrom w s.heapTop w.listing
        heapTop := s.heapTop + (loadedFrom w s.heapTop w.listing).length
        trace := s.trace ++ nsInitEvents w s } := by
  simp [newNsInit, nsInitEvents, pluginPreInit_eq, installUserOverrides_eq, loadPlugins_eq,
    loadMathLibrary_eq, Loader.emit]

theorem setPluginVariablesLoop_final (plugins : List LoadedPlugin) :
    ∀ s : Loader,
      finalState (setPluginVariablesLoop plugins s) =
        { s with trace := s.trace ++ flagEvents plugins } := by
  induction plugins with
  | nil => intro s; simp [setPluginVariablesLoop, flagEvents, finalState]
  | cons p rest ih =>
    intro s
    unfold setPluginVariablesLoop flagEvents
    cases h : pluginVarName p.path with
    | none => simp [finalState]
    | some v => simp [ih, Loader.emit]

theorem newParticleInit_final (w : World) (s : Loader) :
    finalState (newParticleInit w s) =
      { s with trace := s.trace ++ particleInitEvents w s } := by
  simp [newParticleInit, particleInitEvents, setPluginVariables, setPluginVariablesLoop_final,
    pluginPostInit_eq, Loader.emit]

theorem eventsOfNsInit_eq (w : World) (s : Loader) :
    eventsOfNsInit w s = nsInitEvents w s := by
  simp [eventsOfNsInit, newNsInit_eq]

theorem eventsOfParticleInit_eq (w : World) (s : Loader) :
    eventsOfParticleInit w s = particleInitEvents w s := by
  simp [eventsOfParticleInit, newParticleInit_final]

theorem eventsOfLoadMathLibrary_eq (w : World) (s : Loader) :
    eventsOfLoadMathLibrary w s = mathEvents w := by
  simp [eventsOfLoadMathLibrary, loadMathLibrary_eq]

theorem eventsOfPreInit_eq (w : World) (s : Loader) :
    eventsOfPreInit w s =
      stageEvents w "MBExtender: Initializing Plugins, Stage 1:" "preEngineInit" s.loadedPlugins := by
  simp [eventsOfPreInit, pluginPreInit_eq]

theorem eventsOfPostInit_eq (w : World) (s : Loader) :
    eventsOfPostInit w s =
      stageEvents w "MBExtender: Initializing Plugins, Stage 2:" "postEngineInit" s.loadedPlugins := by
  simp [eventsOfPostInit, pluginPostInit_eq]

/-! ## What the loaded list holds -/

theorem loadedFrom_path (w : World) (files : List String) :
    ∀ heap, (loadedFrom w heap files).map (fun p => p.path) =
      (files.filter (fun f => w.loadLibrary (PLUGIN_DIR ++ f) ≠ 0)).map (fun f => PLUGIN_DIR ++ f) := by
  induction files with
  | nil => intro heap; simp [loadedFrom]
  | cons f rest ih =>
    intro heap
    by_cases h : w.loadLibrary (PLUGIN_DIR ++ f) = 0
    · simp [loadedFrom, h, ih]
    · simp [loadedFrom, h, ih]

theorem loadedFrom_module (w : World) (files : List String) :
    ∀ heap, ∀ p ∈ loadedFrom w heap files,
      p.module = w.loadLibrary p.path ∧ p.pluginInterface.path = p.path ∧ p.module ≠ 0 := by
  induction files with
  | nil => intro heap p hp; simp [loadedFrom] at hp
  | cons f rest ih =>
    intro heap p hp
    by_cases h : w.loadLibrary (PLUGIN_DIR ++ f) = 0
    · simp only [loadedFrom, h, ne_eq, not_true_eq_false, ↓reduceIte] at hp
      exact ih heap p hp
    · simp only [loadedFrom, h, ne_eq, not_false_eq_true, ↓reduceIte, List.mem_cons] at hp
      rcases hp with rfl | hp
      · exact ⟨rfl, rfl, h⟩
      · exact ih (heap + 1) p hp

theorem filterMap_exported_loadedFrom (w : World) (fnName : String) (files : List String) :
    ∀ heap, (loadedFrom w heap files).filterMap (exported w fnName) =
      ((loadedFrom w heap files).map (fun p => p.pluginInterface)).filterMap (entryFor w fnName) := by
  intro heap
  rw [List.filterMap_map]
  apply List.filterMap_congr
  intro p hp
  obtain ⟨h1, h2, _⟩ := loadedFrom_module w files heap p hp
  simp [exported, entryFor, Function.comp, h1, h2]

theorem loadedFrom_interface_path (w : World) (files : List String) (heap : Nat) :
    ((loadedFrom w heap files).map (fun p => p.pluginInterface)).map (fun o => o.path) =
      (loadedFrom w heap files).map (fun p => p.path) := by
  rw [List.map_map]
  apply List.map_congr_left
  intro p hp
  exact (loadedFrom_module w files heap p hp).2.1

theorem loadedFrom_modules (w : World) (files : List String) (heap : Nat) :
    (loadedFrom w heap files).map (fun p => p.module) =
      ((loadedFrom w heap files).map (fun p => p.path)).map w.loadLibrary := by
  rw [List.map_map]
  apply List.map_congr_left
  intro p hp
  exact (loadedFrom_module w files heap p hp).1

/-! ## What each segment of a trace contains -/

theorem plugin_path_ne_math (f : String) : PLUGIN_DIR ++ f ≠ MATH_LIB := by
  intro h
  have h2 := congrArg String.data h
  simp [PLUGIN_DIR, MATH_LIB, String.data_append] at h2

theorem mathEvents_steps (w : World) : ∀ e ∈ mathEvents w, isMathStep e = true := by
  intro e he
  unfold mathEvents at he
  split_ifs at he <;> simp at he <;> rcases he with rfl | rfl | rfl | rfl <;> simp [isMathStep]

theorem loadEventsFrom_steps (w : World) (files : List String) :
    ∀ heap, ∀ e ∈ loadEventsFrom w heap files, isDiscoveryStep e = true := by
  induction files with
  | nil => intro heap e he; simp [loadEventsFrom] at he; subst he; rfl
  | cons f rest ih =>
    intro heap e he
    unfold loadEventsFrom at he
    have hne := plugin_path_ne_math f
    split_ifs at he
    · simp at he
      rcases he with rfl | rfl | rfl | rfl | he
      · simp [isDiscoveryStep]
      · simp [isDiscoveryStep, hne]
      · simp [isDiscoveryStep]
      · simp [isDiscoveryStep]
      · exact ih _ e he
    · simp at he
      rcases he with rfl | rfl | rfl | rfl | he
      · simp [isDiscoveryStep]
      · simp [isDiscoveryStep, hne]
      · simp [isDiscoveryStep]
      · simp [isDiscoveryStep]
      · exact ih _ e he

theorem discoveryEvents_steps (w : World) (heap : Nat) :
    ∀ e ∈ discoveryEvents w heap, isDiscoveryStep e = true := by
  intro e he
  unfold discoveryEvents at he
  rcases List.mem_cons.mp he with rfl | he
  · rfl
  · cases hl : w.listing with
    | nil => simp [hl] at he
    | cons f rest =>
      rw [hl] at he
      exact loadEventsFrom_steps w (f :: rest) heap e he

theorem overrideEvents_steps (w : World) (lib : HMODULE) :
    ∀ e ∈ overrideEvents w lib, isOverrideStep e = true := by
  intro e he
  unfold overrideEvents at he
  split_ifs at he <;> simp at he <;> rcases he with rfl | rfl | rfl <;> simp [isOverrideStep]

theorem initEvents_steps (w : World) (fnName : String) (plugins : List LoadedPlugin) :
    ∀ e ∈ initEvents w fnName plugins, isStageStep fnName e = true := by
  induction plugins with
  | nil => intro e he; simp [initEvents] at he
  | cons p rest ih =>
    intro e he
    unfold initEvents visitEvents at he
    split_ifs at he <;> simp at he <;> rcases he with rfl | rfl | rfl | he <;>
      first | exact ih e he | simp [isStageStep]

theorem flagEvents_steps (plugins : List LoadedPlugin) :
    ∀ e ∈ flagEvents plugins, isFlagStep e = true := by
  induction plugins with
  | nil => intro e he; simp [flagEvents] at he
  | cons p rest ih =>
    intro e he
    unfold flagEvents at he
    cases h : pluginVarName p.path with
    | none => simp [h] at he
    | some v =>
      simp only [h, List.mem_cons] at he
      rcases he with rfl | he
      · rfl
      · exact ih e he

theorem filterMap_none_of_forall {α : Type} (f : Event → Option α) (T : List Event)
    (h : ∀ e ∈ T, f e = none) : T.filterMap f = [] := by
  induction T with
  | nil => rfl
  | cons e rest ih =>
    have h1 := h e (List.mem_cons_self e rest)
    have h2 := ih (fun x hx => h x (List.mem_cons_of_mem e hx))
    simp [List.filterMap_cons, h1, h2]

theorem filterMap_mathEvents {α : Type} (f : Event → Option α) (w : World)
    (h : ∀ e, isMathStep e = true → f e = none) : (mathEvents w).filterMap f = [] :=
  filterMap_none_of_forall f _ (fun e he => h e (mathEvents_steps w e he))

theorem filterMap_discoveryEvents {α : Type} (f : Event → Option α) (w : World) (heap : Nat)
    (h : ∀ e, isDiscoveryStep e = true → f e = none) : (discoveryEvents w heap).filterMap f = [] :=
  filterMap_none_of_forall f _ (fun e he => h e (discoveryEvents_steps w heap e he))

theorem filterMap_overrideEvents {α : Type} (f : Event → Option α) (w : World) (lib : HMODULE)
    (h : ∀ e, isOverrideStep e = true → f e = none) : (overrideEvents w lib).filterMap f = [] :=
  filterMap_none_of_forall f _ (fun e he => h e (overrideEvents_steps w lib e he))

theorem filterMap_initEvents {α : Type} (f : Event → Option α) (w : World) (fnName : String)
    (plugins : List LoadedPlugin) (h : ∀ e, isStageStep fnName e = true → f e = none) :
    (initEvents w fnName plugins).filterMap f = [] :=
  filterMap_none_of_forall f _ (fun e he => h e (initEvents_steps w fnName plugins e he))

theorem filterMap_flagEvents {α : Type} (f : Event → Option α) (plugins : List LoadedPlugin)
    (h : ∀ e, isFlagStep e = true → f e = none) : (flagEvents plugins).filterMap f = [] :=
  filterMap_none_of_forall f _ (fun e he => h e (flagEvents_steps plugins e he))

theorem filterMap_stageEvents {α : Type} (f : Event → Option α) (w : World) (banner fnName : String)
    (plugins : List LoadedPlugin) (hb : f (.printf banner []) = none)
    (he : f (.printf "" []) = none) :
    (stageEvents w banner fnName plugins).filterMap f = (initEvents w fnName plugins).filterMap f := by
  unfold stageEvents
  cases plugins with
  | nil => simp [initEvents]
  | cons p rest => simp [List.filterMap_cons, List.filterMap_append, hb, he]

/-- An observation that ignores the support-module, discovery and override steps
and the console banners sees, of `newNsInit`, the original call and Stage 1 only. -/
theorem filterMap_nsInitEvents {α : Type} (f : Event → Option α) (w : World) (s : Loader)
    (hm : ∀ e, isMathStep e = true → f e = none)
    (hd : ∀ e, isDiscoveryStep e = true → f e = none)
    (ho : ∀ e, isOverrideStep e = true → f e = none)
    (hp : ∀ fmt, f (.printf fmt []) = none) :
    (nsInitEvents w s).filterMap f =
      (f (.originalNsInit s.originalNsInit)).toList ++
        (initEvents w "preEngineInit" (s.loadedPlugins ++ loadedFrom w s.heapTop w.listing)).filterMap f := by
  unfold nsInitEvents
  rw [List.filterMap_cons, List.filterMap_cons, List.filterMap_append, List.filterMap_append,
    List.filterMap_append, List.filterMap_cons, filterMap_mathEvents f w hm,
    filterMap_discoveryEvents f w _ hd, filterMap_overrideEvents f w _ ho,
    filterMap_stageEvents f w _ _ _ (hp _) (hp _), hp, hp]
  cases f (.originalNsInit s.originalNsInit) <;> simp

/-- An observation that ignores the console banners and the flag steps sees, of
`newParticleInit`, the original call and Stage 2 only. -/
theorem filterMap_particleInitEvents {α : Type} (f : Event → Option α) (w : World) (s : Loader)
    (hf : ∀ e, isFlagStep e = true → f e = none)
    (hp : ∀ fmt, f (.printf fmt []) = none) :
    (particleInitEvents w s).filterMap f =
      (f (.originalParticleInit s.originalParticleInit)).toList ++
        (initEvents w "postEngineInit" s.loadedPlugins).filterMap f := by
  unfold particleInitEvents
  rw [List.filterMap_cons, List.filterMap_append, filterMap_flagEvents f _ hf,
    filterMap_stageEvents f w _ _ _ (hp _) (hp _)]
  cases f (.originalParticleInit s.originalParticleInit) <;> simp

theorem created_loadEventsFrom (w : World) (files : List String) :
    ∀ heap, (loadEventsFrom w heap files).filterMap createdOf =
      (loadedFrom w heap files).map (fun p => p.pluginInterface) := by
  induction files with
  | nil => intro heap; simp [loadEventsFrom, loadedFrom, createdOf]
  | cons f rest ih =>
    intro heap
    by_cases h : w.loadLibrary (PLUGIN_DIR ++ f) = 0
    · simp [loadEventsFrom, loadedFrom, h, ih, createdOf]
    · simp [loadEventsFrom, loadedFrom, h, ih, createdOf]

theorem created_discoveryEvents (w : World) (heap : Nat) :
    (discoveryEvents w heap).filterMap createdOf =
      (loadedFrom w heap w.listing).map (fun p => p.pluginInterface) := by
  unfold discoveryEvents
  cases hl : w.listing with
  | nil => simp [createdOf, loadedFrom]
  | cons f rest => simp [created_loadEventsFrom, createdOf]

theorem loadAttempts_loadEventsFrom (w : World) (files : List String) :
    ∀ heap, (loadEventsFrom w heap files).filterMap loadAttemptOf =
      files.map (fun f => PLUGIN_DIR ++ f) := by
  induction files with
  | nil => intro heap; simp [loadEventsFrom, loadAttemptOf]
  | cons f rest ih =>
    intro heap
    by_cases h : w.loadLibrary (PLUGIN_DIR ++ f) = 0
    · simp [loadEventsFrom, h, ih, loadAttemptOf]
    · simp [loadEventsFrom, h, ih, loadAttemptOf]

theorem loadAttempts_discoveryEvents (w : World) (heap : Nat) :
    (discoveryEvents w heap).filterMap loadAttemptOf = w.listing.map (fun f => PLUGIN_DIR ++ f) := by
  unfold discoveryEvents
  cases hl : w.listing with
  | nil => simp [loadAttemptOf]
  | cons f rest => simp [loadAttempts_loadEventsFrom, loadAttemptOf]

theorem initMessages_initEvents (w : World) (fnName : String) (plugins : List LoadedPlugin) :
    (initEvents w fnName plugins).filterMap initMessageOf = plugins.map (fun p => p.path) := by
  induction plugins with
  | nil => simp [initEvents]
  | cons p rest ih =>
    by_cases h : w.getProcAddress p.module fnName = 0
    · simp [initEvents, visitEvents, h, ih, initMessageOf]
    · simp [initEvents, visitEvents, h, ih, initMessageOf]

theorem lookupsOf_initEvents (w : World) (fnName : String) (plugins : List LoadedPlugin) :
    (initEvents w fnName plugins).filterMap (lookupOf fnName) = plugins.map (fun p => p.module) := by
  induction plugins with
  | nil => simp [initEvents]
  | cons p rest ih =>
    by_cases h : w.getProcAddress p.module fnName = 0
    · simp [initEvents, visitEvents, h, ih, lookupOf]
    · simp [initEvents, visitEvents, h, ih, lookupOf]

theorem handed_initEvents (w : World) (fnName : String) (plugins : List LoadedPlugin) :
    (initEvents w fnName plugins).filterMap handedOf = plugins.filterMap (exported w fnName) := by
  induction plugins with
  | nil => simp [initEvents]
  | cons p rest ih =>
    by_cases h : w.getProcAddress p.module fnName = 0
    · simp [initEvents, visitEvents, exported, h, ih, handedOf]
    · simp [initEvents, visitEvents, exported, h, ih, handedOf]

theorem warnings_initEvents (w : World) (fnName : String) (plugins : List LoadedPlugin) :
    (initEvents w fnName plugins).filterMap warningOf = plugins.filterMap (missing w fnName) := by
  induction plugins with
  | nil => simp [initEvents]
  | cons p rest ih =>
    by_cases h : w.getProcAddress p.module fnName = 0
    · simp [initEvents, visitEvents, missing, h, ih, warningOf]
    · simp [initEvents, visitEvents, missing, h, ih, warningOf]

/-! ## Observations that ignore a kind of step -/

theorem initMessageOf_math (e : Event) (h : isMathStep e = true) : initMessageOf e = none := by
  cases e with
  | printf fmt args =>
    have hf : fmt = "   Initializing memory interface" := by simpa [isMathStep] using h
    subst hf
    rcases args with _ | ⟨p, _ | ⟨q, r⟩⟩ <;> simp [initMessageOf]
  | _ => simp_all [isMathStep, initMessageOf]

theorem initMessageOf_discovery (e : Event) (h : isDiscoveryStep e = true) :
    initMessageOf e = none := by
  cases e with
  | printf fmt args =>
    have hf : fmt = "   Loading %s" := by simpa [isDiscoveryStep] using h
    subst hf
    rcases args with _ | ⟨p, _ | ⟨q, r⟩⟩ <;> simp [initMessageOf]
  | _ => simp_all [isDiscoveryStep, initMessageOf]

theorem initMessageOf_override (e : Event) (h : isOverrideStep e = true) :
    initMessageOf e = none := by
  cases e with
  | printf fmt args =>
    have hf : fmt = "   Installing user overrides" := by simpa [isOverrideStep] using h
    subst hf
    rcases args with _ | ⟨p, _ | ⟨q, r⟩⟩ <;> simp [initMessageOf]
  | _ => simp_all [isOverrideStep, initMessageOf]

theorem initMessageOf_flag (e : Event) (h : isFlagStep e = true) : initMessageOf e = none := by
  cases e <;> simp_all [isFlagStep, initMessageOf]

theorem lookupOf_math (fnName : String) (hn : fnName ≠ "init") (e : Event)
    (h : isMathStep e = true) : lookupOf fnName e = none := by
  cases e <;> simp_all [isMathStep, lookupOf]
  intro h2; exact hn h2.symm

theorem lookupOf_discovery (fnName : String) (e : Event) (h : isDiscoveryStep e = true) :
    lookupOf fnName e = none := by
  cases e <;> simp_all [isDiscoveryStep, lookupOf]

theorem lookupOf_override (fnName : String) (hn : fnName ≠ "installUserOverrides") (e : Event)
    (h : isOverrideStep e = true) : lookupOf fnName e = none := by
  cases e <;> simp_all [isOverrideStep, lookupOf]
  intro h2; exact hn h2.symm

theorem lookupOf_flag (fnName : String) (e : Event) (h : isFlagStep e = true) :
    lookupOf fnName e = none := by
  cases e <;> simp_all [isFlagStep, lookupOf]

theorem handedOf_math (e : Event) (h : isMathStep e = true) : handedOf e = none := by
  cases e <;> simp_all [isMathStep, handedOf]

theorem handedOf_discovery (e : Event) (h : isDiscoveryStep e = true) : handedOf e = none := by
  cases e <;> simp_all [isDiscoveryStep, handedOf]

theorem handedOf_override (e : Event) (h : isOverrideStep e = true) : handedOf e = none := by
  cases e <;> simp_all [isOverrideStep, handedOf]

theorem handedOf_flag (e : Event) (h : isFlagStep e = true) : handedOf e = none := by
  cases e <;> simp_all [isFlagStep, handedOf]

theorem createdOf_math (e : Event) (h : isMathStep e = true) : createdOf e = none := by
  cases e <;> simp_all [isMathStep, createdOf]

theorem createdOf_override (e : Event) (h : isOverrideStep e = true) : createdOf e = none := by
  cases e <;> simp_all [isOverrideStep, createdOf]

theorem createdOf_stage (fnName : String) (e : Event) (h : isStageStep fnName e = true) :
    createdOf e = none := by
  cases e <;> simp_all [isStageStep, createdOf]

theorem createdOf_flag (e : Event) (h : isFlagStep e = true) : createdOf e = none := by
  cases e <;> simp_all [isFlagStep, createdOf]

theorem created_nsInitEvents (w : World) (s : Loader) :
    created (nsInitEvents w s) = (loadedFrom w s.heapTop w.listing).map (fun p => p.pluginInterface) := by
  unfold created nsInitEvents
  rw [List.filterMap_cons, List.filterMap_cons, List.filterMap_append, List.filterMap_append,
    List.filterMap_append, List.filterMap_cons, filterMap_mathEvents _ w createdOf_math,
    created_discoveryEvents, filterMap_overrideEvents _ w _ createdOf_override,
    filterMap_stageEvents _ w _ _ _ rfl rfl,
    filterMap_initEvents _ w _ _ (createdOf_stage _)]
  simp [createdOf]

/-! ## The compatibility guard -/

theorem memcmp_eq_zero_iff (xs : List Nat) :
    ∀ ys : List Nat, xs.length = ys.length → (memcmp xs ys = 0 ↔ xs = ys) := by
  induction xs with
  | nil => intro ys h; cases ys <;> simp_all [memcmp]
  | cons x xs ih =>
    intro ys h
    cases ys with
    | nil => simp at h
    | cons y ys =>
      have h2 : xs.length = ys.length := by simpa using h
      unfold memcmp
      by_cases hxy : x = y
      · simp [hxy, ih ys h2]
      · by_cases hlt : x < y <;> simp [hxy, hlt]

theorem and_noaccess_ne_zero (p : Nat) : p &&& PAGE_NOACCESS ≠ 0 ↔ p.testBit 0 = true := by
  have h := Nat.and_two_pow p 0
  simp only [pow_zero, mul_one] at h
  unfold PAGE_NOACCESS
  rw [h]
  cases p.testBit 0 <;> simp

theorem and_execute_ne_zero (p : Nat) : p &&& PAGE_EXECUTE ≠ 0 ↔ p.testBit 4 = true := by
  have h := Nat.and_two_pow p 4
  have h16 : (2 : Nat) ^ 4 = 16 := by norm_num
  rw [h16] at h
  unfold PAGE_EXECUTE
  rw [h]
  cases p.testBit 4 <;> simp

theorem region_checks_iff (w : World) :
    (¬ (w.virtualQuery testPointer).1 ≠ sizeofMemInfo
      ∧ ¬ ((w.virtualQuery testPointer).2.Protect = 0
        ∨ (w.virtualQuery testPointer).2.Protect &&& PAGE_NOACCESS ≠ 0
        ∨ (w.virtualQuery testPointer).2.Protect &&& PAGE_EXECUTE ≠ 0)) ↔ regionReadable w := by
  unfold regionReadable
  have ht : testPointer = 0x6796C4 := rfl
  rw [← ht, and_noaccess_ne_zero, and_execute_ne_zero]
  constructor
  · rintro ⟨h1, h2⟩
    push_neg at h1 h2
    exact ⟨h1, h2.1, by simpa using h2.2.1, by simpa using h2.2.2⟩
  · rintro ⟨h1, h2, h3, h4⟩
    refine ⟨by simpa using h1, ?_⟩
    simp [h2, h3, h4]

theorem readBytes_length (w : World) (address n : Nat) : (readBytes w address n).length = n := by
  simp [readBytes]

theorem verifyGame_state (w : World) (s : Loader) :
    ∃ V, (verifyGame w s).2 = { s with trace := s.trace ++ V } ∧ ∀ e ∈ V, isGuardStep e = true := by
  unfold verifyGame
  by_cases h1 : (w.virtualQuery testPointer).1 ≠ sizeofMemInfo
  · exact ⟨[.virtualQuery testPointer sizeofMemInfo], by simp [h1, Loader.emit], by simp [isGuardStep]⟩
  · by_cases h2 : ((w.virtualQuery testPointer).2.Protect = 0
        ∨ (w.virtualQuery testPointer).2.Protect &&& PAGE_NOACCESS ≠ 0
        ∨ (w.virtualQuery testPointer).2.Protect &&& PAGE_EXECUTE ≠ 0)
    · exact ⟨[.virtualQuery testPointer sizeofMemInfo], by simp [h1, h2, Loader.emit],
        by simp [isGuardStep]⟩
    · refine ⟨[.virtualQuery testPointer sizeofMemInfo, .memcmp testPointer (strlen testStr)], ?_, ?_⟩
      · rw [if_neg h1, if_neg h2]
        split <;> simp [Loader.emit]
      · simp [isGuardStep]

theorem executeProcessList_fold (callbacks : List FARPROC) (timeDelta : Nat) :
    ∀ s : Loader,
      callbacks.foldl (fun acc fn => acc.emit (.processCallback fn timeDelta)) s =
        { s with trace := s.trace ++ callbacks.map (fun fn => .processCallback fn timeDelta) } := by
  induction callbacks with
  | nil => intro s; simp
  | cons c rest ih => intro s; rw [List.foldl_cons, ih]; simp [Loader.emit]

theorem newClientProcess_eq (w : World) (timeDelta : Nat) (s : Loader) :
    newClientProcess w timeDelta s =
      { s with trace := s.trace ++ (.executeProcessList timeDelta ::
          (w.processList.map (fun fn => .processCallback fn timeDelta) ++
            [.originalClientProcess s.originalClientProcess timeDelta])) } := by
  unfold newClientProcess executeProcessList
  rw [executeProcessList_fold]
  simp [Loader.emit]

theorem interceptOf_guard (e : Event) (h : isGuardStep e = true) : interceptOf e = none := by
  cases e <;> simp_all [isGuardStep, interceptOf]

theorem searchOf_guard (e : Event) (h : isGuardStep e = true) : searchOf e = none := by
  cases e <;> simp_all [isGuardStep, searchOf]

theorem loadAttemptOf_guard (e : Event) (h : isGuardStep e = true) : loadAttemptOf e = none := by
  cases e <;> simp_all [isGuardStep, loadAttemptOf]

theorem createdOf_guard (e : Event) (h : isGuardStep e = true) : createdOf e = none := by
  cases e <;> simp_all [isGuardStep, createdOf]

theorem messageBoxOf_guard (e : Event) (h : isGuardStep e = true) : messageBoxOf e = none := by
  cases e <;> simp_all [isGuardStep, messageBoxOf]

/-! ## Order of steps -/

theorem all_dropWhile (p : Event → Bool) (f : Event → Bool) (B : List Event)
    (hB : ∀ e ∈ B, p e = false) : (B.dropWhile f).all (fun e => !p e) = true := by
  induction B with
  | nil => rfl
  | cons b rest ih =>
    have hb := hB b (List.mem_cons_self b rest)
    have hr := ih (fun x hx => hB x (List.mem_cons_of_mem b hx))
    have hall : rest.all (fun e => !p e) = true := by
      rw [List.all_eq_true]
      intro x hx
      simp [hB x (List.mem_cons_of_mem b hx)]
    rw [List.dropWhile_cons]
    split
    · exact hr
    · simp [List.all_cons, hb, hall]

/-- If no `q` step occurs in `A` and no `p` step occurs in `B` then in `A ++ B`
every `p` step comes before every `q` step. -/
theorem allBefore_append (p q : Event → Bool) (A B : List Event)
    (hA : ∀ e ∈ A, q e = false) (hB : ∀ e ∈ B, p e = false) :
    allBefore p q (A ++ B) = true := by
  unfold allBefore
  induction A with
  | nil => exact all_dropWhile p _ B hB
  | cons a rest ih =>
    have ha := hA a (List.mem_cons_self a rest)
    rw [List.cons_append, List.dropWhile_cons]
    simp only [ha, Bool.not_false, ↓reduceIte]
    exact ih (fun x hx => hA x (List.mem_cons_of_mem a hx))

/-- What `allBefore` says in terms of positions: whenever a `q` step stands at
position `i` and a `p` step at position `j`, `j < i`. -/
theorem allBefore_iff (p q : Event → Bool) (T : List Event) :
    allBefore p q T = true ↔
      ∀ (i j : Nat) (e e' : Event),
        T[i]? = some e → T[j]? = some e' → q e = true → p e' = true → j < i := by
  unfold allBefore
  induction T with
  | nil => simp
  | cons a rest ih =>
    rw [List.dropWhile_cons]
    by_cases hq : q a = true
    · simp only [hq, Bool.not_true, Bool.false_eq_true, ↓reduceIte]
      constructor
      · intro hall i j e e' _ hj _ hp
        rw [List.all_eq_true] at hall
        have hmem : e' ∈ a :: rest := List.getElem?_mem hj
        have := hall e' hmem
        simp [hp] at this
      · intro h
        rw [List.all_eq_true]
        intro x hx
        obtain ⟨j, hj'⟩ := List.mem_iff_getElem?.mp hx
        cases hpx : p x with
        | false => rfl
        | true =>
          have := h 0 j a x (by simp) hj' hq hpx
          omega
    · have hq' : q a = false := by simpa using hq
      simp only [hq', Bool.not_false, ↓reduceIte]
      rw [ih]
      constructor
      · intro h i j e e' hi hj hqe hpe
        cases i with
        | zero =>
          simp at hi
          subst hi
          rw [hq'] at hqe
          exact absurd hqe (by decide)
        | succ i =>
          cases j with
          | zero => omega
          | succ j =>
            have := h i j e e' (by simpa using hi) (by simpa using hj) hqe hpe
            omega
      · intro h i j e e' hi hj hqe hpe
        have := h (i + 1) (j + 1) e e' (by simpa using hi) (by simpa using hj) hqe hpe
        omega

theorem stageEvents_kinds (w : World) (banner fnName : String) (plugins : List LoadedPlugin) :
    ∀ e ∈ stageEvents w banner fnName plugins,
      isStageStep fnName e = true ∨ e = .printf banner [] ∨ e = .printf "" [] := by
  intro e he
  unfold stageEvents at he
  split_ifs at he
  · simp at he
  · simp only [List.mem_cons, List.mem_append, List.mem_singleton, List.not_mem_nil, or_false] at he
    rcases he with rfl | he | rfl
    · exact Or.inr (Or.inl rfl)
    · exact Or.inl (initEvents_steps w fnName plugins e he)
    · exact Or.inr (Or.inr rfl)

theorem math_not_discovery (e : Event) (h : isMathStep e = true) : isDiscoveryStep e = false := by
  cases e <;> simp_all [isMathStep, isDiscoveryStep]

theorem math_not_override (e : Event) (h : isMathStep e = true) : isOverrideStep e = false := by
  cases e <;> simp_all [isMathStep, isOverrideStep]

theorem math_not_stage (fnName : String) (hn : fnName ≠ "init") (e : Event)
    (h : isMathStep e = true) : isStageStep fnName e = false := by
  cases e <;> simp_all [isMathStep, isStageStep]
  exact fun h2 => hn h2.symm

theorem discovery_not_math (e : Event) (h : isDiscoveryStep e = true) : isMathStep e = false := by
  cases e <;> simp_all [isMathStep, isDiscoveryStep]

theorem discovery_not_override (e : Event) (h : isDiscoveryStep e = true) :
    isOverrideStep e = false := by
  cases e <;> simp_all [isDiscoveryStep, isOverrideStep]

theorem discovery_not_stage (fnName : String) (e : Event) (h : isDiscoveryStep e = true) :
    isStageStep fnName e = false := by
  cases e <;> simp_all [isDiscoveryStep, isStageStep]

theorem override_not_math (e : Event) (h : isOverrideStep e = true) : isMathStep e = false := by
  cases e <;> simp_all [isMathStep, isOverrideStep]

theorem override_not_discovery (e : Event) (h : isOverrideStep e = true) :
    isDiscoveryStep e = false := by
  cases e <;> simp_all [isDiscoveryStep, isOverrideStep]

theorem override_not_stage (fnName : String) (hn : fnName ≠ "installUserOverrides") (e : Event)
    (h : isOverrideStep e = true) : isStageStep fnName e = false := by
  cases e <;> simp_all [isOverrideStep, isStageStep]
  exact fun h2 => hn h2.symm

theorem stage_not_math (fnName : String) (hn : fnName ≠ "init") (e : Event)
    (h : isStageStep fnName e = true) : isMathStep e = false := by
  cases e <;> simp_all [isMathStep, isStageStep]

theorem stage_not_discovery (fnName : String) (e : Event) (h : isStageStep fnName e = true) :
    isDiscoveryStep e = false := by
  cases e <;> simp_all [isDiscoveryStep, isStageStep]

theorem stage_not_override (fnName : String) (hn : fnName ≠ "installUserOverrides") (e : Event)
    (h : isStageStep fnName e = true) : isOverrideStep e = false := by
  cases e <;> simp_all [isOverrideStep, isStageStep]

theorem stage_not_flag (fnName : String) (e : Event) (h : isStageStep fnName e = true) :
    isFlagStep e = false := by
  cases e <;> simp_all [isFlagStep, isStageStep]

theorem flag_not_stage (fnName : String) (e : Event) (h : isFlagStep e = true) :
    isStageStep fnName e = false := by
  cases e <;> simp_all [isFlagStep, isStageStep]

theorem not_originalNsInit_of (k : Event → Bool) (hk : ∀ fn, k (.originalNsInit fn) = false)
    (e : Event) (h : k e = true) : isOriginalNsInit e = false := by
  cases e <;> simp_all [isOriginalNsInit]

theorem not_originalParticleInit_of (k : Event → Bool)
    (hk : ∀ fn, k (.originalParticleInit fn) = false)
    (e : Event) (h : k e = true) : isOriginalParticleInit e = false := by
  cases e <;> simp_all [isOriginalParticleInit]

/-- The five segments of the events of `newNsInit`. -/
theorem nsInitEvents_segments (w : World) (s : Loader) :
    nsInitEvents w s =
      [.originalNsInit s.originalNsInit] ++ (.printf "MBExtender Init:" [] :: mathEvents w) ++
        discoveryEvents w s.heapTop ++ overrideEvents w (w.loadLibrary MATH_LIB) ++
        (.printf "" [] ::
          stageEvents w "MBExtender: Initializing Plugins, Stage 1:" "preEngineInit"
            (s.loadedPlugins ++ loadedFrom w s.heapTop w.listing)) := by
  simp [nsInitEvents]

/-- A step predicate that rejects the console banners holds nowhere in Stage 1
if it holds for no step of `callPluginInit`. -/
theorem stage1_none (k : Event → Bool) (w : World) (plugins : List LoadedPlugin)
    (hs : ∀ e, isStageStep "preEngineInit" e = true → k e = false)
    (hb : k (.printf "MBExtender: Initializing Plugins, Stage 1:" []) = false)
    (he : k (.printf "" []) = false) :
    ∀ e ∈ (Event.printf "" [] ::
        stageEvents w "MBExtender: Initializing Plugins, Stage 1:" "preEngineInit" plugins),
      k e = false := by
  intro e hmem
  rcases List.mem_cons.mp hmem with rfl | hmem
  · exact he
  · rcases stageEvents_kinds w _ _ _ e hmem with h | rfl | rfl
    · exact hs e h
    · exact hb
    · exact he

theorem stage2_none (k : Event → Bool) (w : World) (plugins : List LoadedPlugin)
    (hs : ∀ e, isStageStep "postEngineInit" e = true → k e = false)
    (hb : k (.printf "MBExtender: Initializing Plugins, Stage 2:" []) = false)
    (he : k (.printf "" []) = false) :
    ∀ e ∈ stageEvents w "MBExtender: Initializing Plugins, Stage 2:" "postEngineInit" plugins,
      k e = false := by
  intro e hmem
  rcases stageEvents_kinds w _ _ _ e hmem with h | rfl | rfl
  · exact hs e h
  · exact hb
  · exact he

theorem math_segment_none (k : Event → Bool) (w : World)
    (hm : ∀ e, isMathStep e = true → k e = false)
    (hb : k (.printf "MBExtender Init:" []) = false) :
    ∀ e ∈ (Event.printf "MBExtender Init:" [] :: mathEvents w), k e = false := by
  intro e he
  rcases List.mem_cons.mp he with rfl | he
  · exact hb
  · exact hm e (mathEvents_steps w e he)

/-- Ordering of two kinds of step in the events of `newNsInit`, from which of the
five segments can hold a `p` step and which a `q` step: a cut after segment `n`
with no `q` step before it and no `p` step after it. -/
theorem nsInit_allBefore_cut2 (p q : Event → Bool) (w : World) (s : Loader)
    (h0 : ∀ fn, q (.originalNsInit fn) = false)
    (h1 : ∀ e ∈ (Event.printf "MBExtender Init:" [] :: mathEvents w), q e = false)
    (h2 : ∀ e ∈ discoveryEvents w s.heapTop, p e = false)
    (h3 : ∀ e ∈ overrideEvents w (w.loadLibrary MATH_LIB), p e = false)
    (h4 : ∀ e ∈ (Event.printf "" [] ::
        stageEvents w "MBExtender: Initializing Plugins, Stage 1:" "preEngineInit"
          (s.loadedPlugins ++ loadedFrom w s.heapTop w.listing)), p e = false) :
    allBefore p q (nsInitEvents w s) = true := by
  rw [nsInitEvents_segments, List.append_assoc, List.append_assoc]
  apply allBefore_append
  · intro e he
    rcases List.mem_append.mp he with he | he
    · rw [List.mem_singleton] at he; subst he; exact h0 _
    · exact h1 e he
  · intro e he
    rcases List.mem_append.mp he with he | he
    · exact h2 e he
    · rcases List.mem_append.mp he with he | he
      · exact h3 e he
      · exact h4 e he

theorem nsInit_allBefore_cut3 (p q : Event → Bool) (w : World) (s : Loader)
    (h0 : ∀ fn, q (.originalNsInit fn) = false)
    (h1 : ∀ e ∈ (Event.printf "MBExtender Init:" [] :: mathEvents w), q e = false)
    (h2 : ∀ e ∈ discoveryEvents w s.heapTop, q e = false)
    (h3 : ∀ e ∈ overrideEvents w (w.loadLibrary MATH_LIB), p e = false)
    (h4 : ∀ e ∈ (Event.printf "" [] ::
        stageEvents w "MBExtender: Initializing Plugins, Stage 1:" "preEngineInit"
          (s.loadedPlugins ++ loadedFrom w s.heapTop w.listing)), p e = false) :
    allBefore p q (nsInitEvents w s) = true := by
  rw [nsInitEvents_segments, List.append_assoc]
  apply allBefore_append
  · intro e he
    rcases List.mem_append.mp he with he | he
    · rcases List.mem_append.mp he with he | he
      · rw [List.mem_singleton] at he; subst he; exact h0 _
      · exact h1 e he
    · exact h2 e he
  · intro e he
    rcases List.mem_append.mp he with he | he
    · exact h3 e he
    · exact h4 e he

theorem nsInit_allBefore_cut4 (p q : Event → Bool) (w : World) (s : Loader)
    (h0 : ∀ fn, q (.originalNsInit fn) = false)
    (h1 : ∀ e ∈ (Event.printf "MBExtender Init:" [] :: mathEvents w), q e = false)
    (h2 : ∀ e ∈ discoveryEvents w s.heapTop, q e = false)
    (h3 : ∀ e ∈ overrideEvents w (w.loadLibrary MATH_LIB), q e = false)
    (hq : q (.printf "" []) = false)
    (h4 : ∀ e ∈ stageEvents w "MBExtender: Initializing Plugins, Stage 1:" "preEngineInit"
          (s.loadedPlugins ++ loadedFrom w s.heapTop w.listing), p e = false) :
    allBefore p q (nsInitEvents w s) = true := by
  have hs : nsInitEvents w s =
      ([.originalNsInit s.originalNsInit] ++ (.printf "MBExtender Init:" [] :: mathEvents w) ++
        discoveryEvents w s.heapTop ++ overrideEvents w (w.loadLibrary MATH_LIB) ++
        [.printf "" []]) ++
          stageEvents w "MBExtender: Initializing Plugins, Stage 1:" "preEngineInit"
            (s.loadedPlugins ++ loadedFrom w s.heapTop w.listing) := by
    simp [nsInitEvents]
  rw [hs]
  apply allBefore_append
  · intro e he
    rcases List.mem_append.mp he with he | he
    · rcases List.mem_append.mp he with he | he
      · rcases List.mem_append.mp he with he | he
        · rcases List.mem_append.mp he with he | he
          · rw [List.mem_singleton] at he; subst he; exact h0 _
          · exact h1 e he
        · exact h2 e he
      · exact h3 e he
    · rw [List.mem_singleton] at he; subst he; exact hq
  · exact h4

theorem nsInit_allBefore_cut1 (p q : Event → Bool) (w : World) (s : Loader)
    (h0 : ∀ fn, q (.originalNsInit fn) = false)
    (h1 : ∀ e ∈ (Event.printf "MBExtender Init:" [] :: mathEvents w), p e = false)
    (h2 : ∀ e ∈ discoveryEvents w s.heapTop, p e = false)
    (h3 : ∀ e ∈ overrideEvents w (w.loadLibrary MATH_LIB), p e = false)
    (h4 : ∀ e ∈ (Event.printf "" [] ::
        stageEvents w "MBExtender: Initializing Plugins, Stage 1:" "preEngineInit"
          (s.loadedPlugins ++ loadedFrom w s.heapTop w.listing)), p e = false) :
    allBefore p q (nsInitEvents w s) = true := by
  rw [nsInitEvents_segments, List.append_assoc, List.append_assoc, List.append_assoc]
  apply allBefore_append
  · intro e he
    rw [List.mem_singleton] at he; subst he; exact h0 _
  · intro e he
    rcases List.mem_append.mp he with he | he
    · exact h1 e he
    · rcases List.mem_append.mp he with he | he
      · exact h2 e he
      · rcases List.mem_append.mp he with he | he
        · exact h3 e he
        · exact h4 e he

/-! ## Paths with an extension -/

theorem find_last_of_isSome (c : Char) (l : List Char) (h : c ∈ l) :
    ∃ i, find_last_of l c = some i := by
  induction l with
  | nil => simp at h
  | cons x xs ih =>
    unfold find_last_of
    cases hx : find_last_of xs c with
    | some i => exact ⟨i + 1, rfl⟩
    | none =>
      rcases List.mem_cons.mp h with rfl | hmem
      · exact ⟨0, by simp⟩
      · obtain ⟨i, hi⟩ := ih hmem
        rw [hx] at hi
        exact absurd hi (by simp)

theorem pluginVarName_isSome (path : String) (h : '.' ∈ path.data) :
    ∃ name, pluginVarName path = some name := by
  obtain ⟨i, hi⟩ := find_last_of_isSome '.' path.data h
  exact ⟨"Plugin::Loaded" ++ String.mk (path.data.take i), by simp [pluginVarName, hi]⟩

theorem setPluginVariablesLoop_ok (plugins : List LoadedPlugin) :
    ∀ s : Loader, (∀ p ∈ plugins, '.' ∈ p.path.data) →
      setPluginVariablesLoop plugins s = .ok (finalState (setPluginVariablesLoop plugins s)) := by
  induction plugins with
  | nil => intro s _; simp [setPluginVariablesLoop, finalState]
  | cons p rest ih =>
    intro s h
    obtain ⟨name, hn⟩ := pluginVarName_isSome p.path (h p (List.mem_cons_self p rest))
    unfold setPluginVariablesLoop
    simp only [hn]
    exact ih _ (fun q hq => h q (List.mem_cons_of_mem p hq))

theorem flagEvents_names (plugins : List LoadedPlugin) (h : ∀ p ∈ plugins, '.' ∈ p.path.data) :
    ((flagEvents plugins).filterMap flagOf).map (fun f => some f.1)
        = plugins.map (fun p => pluginVarName p.path)
    ∧ ((flagEvents plugins).filterMap flagOf).map (fun f => f.2) = plugins.map (fun _ => true) := by
  induction plugins with
  | nil => simp [flagEvents]
  | cons p rest ih =>
    obtain ⟨name, hn⟩ := pluginVarName_isSome p.path (h p (List.mem_cons_self p rest))
    have ih' := ih (fun q hq => h q (List.mem_cons_of_mem p hq))
    unfold flagEvents
    simp only [hn, List.filterMap_cons, flagOf, List.map_cons]
    exact ⟨by rw [ih'.1], by rw [ih'.2]⟩

theorem flagOf_stage (fnName : String) (e : Event) (h : isStageStep fnName e = true) :
    flagOf e = none := by
  cases e <;> simp_all [isStageStep, flagOf]

theorem loadAttemptOf_override (e : Event) (h : isOverrideStep e = true) :
    loadAttemptOf e = none := by
  cases e <;> simp_all [isOverrideStep, loadAttemptOf]

theorem loadAttemptOf_stage (fnName : String) (e : Event) (h : isStageStep fnName e = true) :
    loadAttemptOf e = none := by
  cases e <;> simp_all [isStageStep, loadAttemptOf]

/-! ## The support module and what depends on it -/

theorem mathInitOf_discovery (e : Event) (h : isDiscoveryStep e = true) : mathInitOf e = none := by
  cases e <;> simp_all [isDiscoveryStep, mathInitOf]

theorem mathInitOf_override (e : Event) (h : isOverrideStep e = true) : mathInitOf e = none := by
  cases e <;> simp_all [isOverrideStep, mathInitOf]

theorem mathInitOf_stage (fnName : String) (e : Event) (h : isStageStep fnName e = true) :
    mathInitOf e = none := by
  cases e <;> simp_all [isStageStep, mathInitOf]

theorem mathInits_nsInitEvents (w : World) (s : Loader) :
    mathInits (nsInitEvents w s) = mathInits (mathEvents w) := by
  unfold mathInits nsInitEvents
  rw [List.filterMap_cons, List.filterMap_cons, List.filterMap_append, List.filterMap_append,
    List.filterMap_append, List.filterMap_cons,
    filterMap_discoveryEvents _ w _ mathInitOf_discovery,
    filterMap_overrideEvents _ w _ mathInitOf_override,
    filterMap_stageEvents _ w _ _ _ rfl rfl,
    filterMap_initEvents _ w _ _ (mathInitOf_stage _)]
  simp [mathInitOf]

theorem loadAttempts_nsInitEvents (w : World) (s : Loader) :
    loadAttempts (nsInitEvents w s) = MATH_LIB :: w.listing.map (fun f => PLUGIN_DIR ++ f) := by
  unfold loadAttempts nsInitEvents
  rw [List.filterMap_cons, List.filterMap_cons, List.filterMap_append, List.filterMap_append,
    List.filterMap_append, List.filterMap_cons, loadAttempts_discoveryEvents,
    filterMap_overrideEvents _ w _ loadAttemptOf_override,
    filterMap_stageEvents _ w _ _ _ rfl rfl,
    filterMap_initEvents _ w _ _ (loadAttemptOf_stage _)]
  unfold mathEvents
  split_ifs <;> simp [loadAttemptOf]

theorem initMessages_nsInitEvents (w : World) (s : Loader) :
    initMessages (nsInitEvents w s) =
      (s.loadedPlugins ++ loadedFrom w s.heapTop w.listing).map (fun p => p.path) := by
  unfold initMessages
  rw [filterMap_nsInitEvents _ w s initMessageOf_math initMessageOf_discovery
    initMessageOf_override (fun _ => rfl), initMessages_initEvents]
  simp [initMessageOf]

theorem handed_nsInitEvents (w : World) (s : Loader) :
    handed (nsInitEvents w s) =
      (s.loadedPlugins ++ loadedFrom w s.heapTop w.listing).filterMap (exported w "preEngineInit") := by
  unfold handed
  rw [filterMap_nsInitEvents _ w s handedOf_math handedOf_discovery
    handedOf_override (fun _ => rfl), handed_initEvents]
  simp [handedOf]

theorem loadedFrom_congr (w1 w2 : World)
    (hload : ∀ f, w1.loadLibrary (PLUGIN_DIR ++ f) = w2.loadLibrary (PLUGIN_DIR ++ f))
    (files : List String) : ∀ heap, loadedFrom w1 heap files = loadedFrom w2 heap files := by
  induction files with
  | nil => intro heap; rfl
  | cons f rest ih =>
    intro heap
    unfold loadedFrom
    rw [hload f, ih heap, ih (heap + 1)]

/-! ## The name of a flag -/

theorem find_last_of_none (c : Char) (l : List Char) (h : c ∉ l) : find_last_of l c = none := by
  induction l with
  | nil => rfl
  | cons x xs ih =>
    have hx : x ≠ c := fun e => h (e ▸ List.mem_cons_self x xs)
    have hxs : c ∉ xs := fun e => h (List.mem_cons_of_mem x e)
    unfold find_last_of
    rw [ih hxs]
    simp [hx]

theorem find_last_of_append (c : Char) (a b : List Char) (h : c ∉ b) :
    find_last_of (a ++ c :: b) c = some a.length := by
  induction a with
  | nil =>
    rw [List.nil_append]
    unfold find_last_of
    rw [find_last_of_none c b h]
    simp
  | cons x xs ih =>
    rw [List.cons_append]
    unfold find_last_of
    rw [ih]
    rfl

theorem pluginVarName_fileName (n : String × String) (h : '.' ∉ n.2.data) :
    pluginVarName (PLUGIN_DIR ++ fileName n) = some (flagFor n).1 := by
  have hd : (PLUGIN_DIR ++ fileName n).data = (PLUGIN_DIR ++ n.1).data ++ '.' :: n.2.data := by
    simp [fileName, String.data_append]
  unfold pluginVarName
  rw [hd, find_last_of_append '.' _ _ h]
  show some ("Plugin::Loaded" ++ String.mk (List.take (PLUGIN_DIR ++ n.1).data.length
    ((PLUGIN_DIR ++ n.1).data ++ '.' :: n.2.data))) = _
  rw [List.take_left']
  · rfl
  · rfl

theorem fileName_has_dot (n : String × String) : '.' ∈ (PLUGIN_DIR ++ fileName n).data := by
  have hd : (PLUGIN_DIR ++ fileName n).data = (PLUGIN_DIR ++ n.1).data ++ '.' :: n.2.data := by
    simp [fileName, String.data_append]
  rw [hd]
  simp

theorem flagEvents_loadedFrom (w : World) (names : List (String × String))
    (h : ∀ n ∈ names, '.' ∉ n.2.data) :
    ∀ heap, (flagEvents (loadedFrom w heap (names.map fileName))).filterMap flagOf =
      (names.filter (fun n => w.loadLibrary (PLUGIN_DIR ++ fileName n) ≠ 0)).map flagFor := by
  induction names with
  | nil => intro heap; simp [loadedFrom, flagEvents]
  | cons n rest ih =>
    intro heap
    have hn := pluginVarName_fileName n (h n (List.mem_cons_self n rest))
    have ih' := ih (fun m hm => h m (List.mem_cons_of_mem n hm))
    rw [List.map_cons]
    unfold loadedFrom
    by_cases hl : w.loadLibrary (PLUGIN_DIR ++ fileName n) = 0
    · simp [hl, ih']
    · simp only [ne_eq, hl, not_false_eq_true, ↓reduceIte]
      unfold flagEvents
      simp only [hn, List.filterMap_cons, flagOf]
      rw [ih' (heap + 1)]
      simp [hl, flagFor]

theorem loadedFrom_has_dot (w : World) (names : List (String × String)) :
    ∀ heap, ∀ p ∈ loadedFrom w heap (names.map fileName), '.' ∈ p.path.data := by
  induction names with
  | nil => intro heap p hp; simp [loadedFrom] at hp
  | cons n rest ih =>
    intro heap p hp
    rw [List.map_cons] at hp
    unfold loadedFrom at hp
    split_ifs at hp
    · rcases List.mem_cons.mp hp with rfl | hp
      · exact fileName_has_dot n
      · exact ih _ p hp
    · exact ih _ p hp

theorem flagFor_injective (n m : String × String) (h : flagFor n = flagFor m) : n.1 = m.1 := by
  unfold flagFor at h
  have h1 := congrArg (fun x => x.1.data) h
  simp only [String.data_append] at h1
  have h2 := List.append_cancel_left (List.append_cancel_left h1)
  exact String.ext h2

theorem flagOf_math (e : Event) (h : isMathStep e = true) : flagOf e = none := by
  cases e <;> simp_all [isMathStep, flagOf]

theorem flagOf_discovery (e : Event) (h : isDiscoveryStep e = true) : flagOf e = none := by
  cases e <;> simp_all [isDiscoveryStep, flagOf]

theorem flagOf_override (e : Event) (h : isOverrideStep e = true) : flagOf e = none := by
  cases e <;> simp_all [isOverrideStep, flagOf]

/-! ## Every step of `newNsInit` takes place -/

theorem filterMap_nsInitEvents_segments {α : Type} (f : Event → Option α) (w : World) (s : Loader)
    (hp : ∀ fmt, f (.printf fmt []) = none) :
    (nsInitEvents w s).filterMap f =
      (f (.originalNsInit s.originalNsInit)).toList ++
        ((mathEvents w).filterMap f ++
          ((discoveryEvents w s.heapTop).filterMap f ++
            ((overrideEvents w (w.loadLibrary MATH_LIB)).filterMap f ++
              (initEvents w "preEngineInit"
                (s.loadedPlugins ++ loadedFrom w s.heapTop w.listing)).filterMap f))) := by
  unfold nsInitEvents
  rw [List.filterMap_cons, List.filterMap_cons, List.filterMap_append, List.filterMap_append,
    List.filterMap_append, List.filterMap_cons,
    filterMap_stageEvents f w _ _ _ (hp _) (hp _), hp, hp]
  cases f (.originalNsInit s.originalNsInit) <;> simp

theorem searchOf_math (e : Event) (h : isMathStep e = true) : searchOf e = none := by
  cases e <;> simp_all [isMathStep, searchOf]

theorem searchOf_override (e : Event) (h : isOverrideStep e = true) : searchOf e = none := by
  cases e <;> simp_all [isOverrideStep, searchOf]

theorem searchOf_stage (fnName : String) (e : Event) (h : isStageStep fnName e = true) :
    searchOf e = none := by
  cases e <;> simp_all [isStageStep, searchOf]

theorem overrideCallOf_math (e : Event) (h : isMathStep e = true) : overrideCallOf e = none := by
  cases e <;> simp_all [isMathStep, overrideCallOf]

theorem overrideCallOf_discovery (e : Event) (h : isDiscoveryStep e = true) :
    overrideCallOf e = none := by
  cases e <;> simp_all [isDiscoveryStep, overrideCallOf]

theorem overrideCallOf_stage (fnName : String) (e : Event) (h : isStageStep fnName e = true) :
    overrideCallOf e = none := by
  cases e <;> simp_all [isStageStep, overrideCallOf]

theorem lookupOf_stage (fnName name : String) (hn : name ≠ fnName) (e : Event)
    (h : isStageStep fnName e = true) : lookupOf name e = none := by
  cases e <;> simp_all [isStageStep, lookupOf]
  exact fun h2 => hn h2.symm

theorem warningOf_math (e : Event) (h : isMathStep e = true) : warningOf e = none := by
  cases e <;> simp_all [isMathStep, warningOf]

theorem warningOf_discovery (e : Event) (h : isDiscoveryStep e = true) : warningOf e = none := by
  cases e <;> simp_all [isDiscoveryStep, warningOf]

theorem warningOf_override (e : Event) (h : isOverrideStep e = true) : warningOf e = none := by
  cases e <;> simp_all [isOverrideStep, warningOf]

theorem searches_loadEventsFrom (w : World) (files : List String) :
    ∀ heap, (loadEventsFrom w heap files).filterMap searchOf = [] := by
  induction files with
  | nil => intro heap; simp [loadEventsFrom, searchOf]
  | cons f rest ih =>
    intro heap
    by_cases h : w.loadLibrary (PLUGIN_DIR ++ f) = 0
    · simp [loadEventsFrom, h, ih, searchOf]
    · simp [loadEventsFrom, h, ih, searchOf]

theorem searches_discoveryEvents (w : World) (heap : Nat) :
    (discoveryEvents w heap).filterMap searchOf = [PLUGIN_FILTER] := by
  unfold discoveryEvents
  cases hl : w.listing with
  | nil => simp [searchOf]
  | cons f rest => simp [searches_loadEventsFrom, searchOf]

theorem searches_nsInitEvents (w : World) (s : Loader) :
    searches (nsInitEvents w s) = [PLUGIN_FILTER] := by
  unfold searches
  rw [filterMap_nsInitEvents_segments _ w s (fun _ => rfl),
    filterMap_mathEvents _ w searchOf_math, searches_discoveryEvents,
    filterMap_overrideEvents _ w _ searchOf_override,
    filterMap_initEvents _ w _ _ (searchOf_stage _)]
  simp [searchOf]

theorem lookupsOf_init_nsInitEvents (w : World) (s : Loader) :
    lookupsOf "init" (nsInitEvents w s) =
      if w.loadLibrary MATH_LIB ≠ 0 then [w.loadLibrary MATH_LIB] else [] := by
  unfold lookupsOf
  rw [filterMap_nsInitEvents_segments _ w s (fun _ => rfl),
    filterMap_discoveryEvents _ w _ (lookupOf_discovery _),
    filterMap_overrideEvents _ w _ (lookupOf_override _ (by decide)),
    filterMap_initEvents _ w _ _ (lookupOf_stage _ _ (by decide))]
  unfold mathEvents
  split_ifs <;> simp [lookupOf]

theorem mathInits_mathEvents (w : World) :
    mathInits (mathEvents w) =
      if w.loadLibrary MATH_LIB ≠ 0 ∧ w.getProcAddress (w.loadLibrary MATH_LIB) "init" ≠ 0 then
        [w.getProcAddress (w.loadLibrary MATH_LIB) "init"]
      else [] := by
  unfold mathInits mathEvents
  by_cases h0 : w.loadLibrary MATH_LIB = 0
  · simp [h0, mathInitOf]
  · by_cases h1 : w.getProcAddress (w.loadLibrary MATH_LIB) "init" = 0
    · simp [h0, h1, mathInitOf]
    · simp [h0, h1, mathInitOf]

theorem lookupsOf_overrides_nsInitEvents (w : World) (s : Loader) :
    lookupsOf "installUserOverrides" (nsInitEvents w s) =
      if w.loadLibrary MATH_LIB ≠ 0 then [w.loadLibrary MATH_LIB] else [] := by
  unfold lookupsOf
  rw [filterMap_nsInitEvents_segments _ w s (fun _ => rfl),
    filterMap_mathEvents _ w (lookupOf_math _ (by decide)),
    filterMap_discoveryEvents _ w _ (lookupOf_discovery _),
    filterMap_initEvents _ w _ _ (lookupOf_stage _ _ (by decide))]
  unfold overrideEvents
  by_cases h0 : w.loadLibrary MATH_LIB = 0
  · simp [h0, lookupOf]
  · by_cases h1 : w.getProcAddress (w.loadLibrary MATH_LIB) "installUserOverrides" = 0
    · simp [h0, h1, lookupOf]
    · simp [h0, h1, lookupOf]

theorem overrideCalls_nsInitEvents (w : World) (s : Loader) :
    overrideCalls (nsInitEvents w s) =
      if w.loadLibrary MATH_LIB ≠ 0
          ∧ w.getProcAddress (w.loadLibrary MATH_LIB) "installUserOverrides" ≠ 0 then
        [w.getProcAddress (w.loadLibrary MATH_LIB) "installUserOverrides"]
      else [] := by
  unfold overrideCalls
  rw [filterMap_nsInitEvents_segments _ w s (fun _ => rfl),
    filterMap_mathEvents _ w overrideCallOf_math,
    filterMap_discoveryEvents _ w _ overrideCallOf_discovery,
    filterMap_initEvents _ w _ _ (overrideCallOf_stage _)]
  unfold overrideEvents
  by_cases h0 : w.loadLibrary MATH_LIB = 0
  · simp [h0, overrideCallOf]
  · by_cases h1 : w.getProcAddress (w.loadLibrary MATH_LIB) "installUserOverrides" = 0
    · simp [h0, h1, overrideCallOf]
    · simp [h0, h1, overrideCallOf]

theorem lookupsOf_pre_nsInitEvents (w : World) (s : Loader) :
    lookupsOf "preEngineInit" (nsInitEvents w s) =
      (s.loadedPlugins ++ loadedFrom w s.heapTop w.listing).map (fun p => p.module) := by
  unfold lookupsOf
  rw [filterMap_nsInitEvents _ w s (lookupOf_math _ (by decide)) (lookupOf_discovery _)
    (lookupOf_override _ (by decide)) (fun _ => rfl), lookupsOf_initEvents]
  simp [lookupOf]

theorem warnings_nsInitEvents (w : World) (s : Loader) :
    warnings (nsInitEvents w s) =
      (s.loadedPlugins ++ loadedFrom w s.heapTop w.listing).filterMap (missing w "preEngineInit") := by
  unfold warnings
  rw [filterMap_nsInitEvents _ w s warningOf_math warningOf_discovery
    warningOf_override (fun _ => rfl), warnings_initEvents]
  simp [warningOf]

/-! ## Plugin initialisation order -/

/-- C1: whatever the directory listing and whichever files load, Stage 1 (in
`newNsInit`) and Stage 2 (in `newParticleInit`) each visit exactly the listed
files whose load succeeded, once each and in listing order; `loadPlugins`
creates one interface per such file, in the same order, and every entry point
called in either stage is handed the interface created for its own plugin. -/
theorem stages_visit_loaded_plugins_in_listing_order (w : World) (s : Loader)
    (h : s.loadedPlugins = []) :
    initMessages (eventsOfNsInit w s) = succeededPaths w
    ∧ initMessages (eventsOfParticleInit w (newNsInit w s)) = succeededPaths w
    ∧ lookupsOf "preEngineInit" (eventsOfNsInit w s) = (succeededPaths w).map w.loadLibrary
    ∧ lookupsOf "postEngineInit" (eventsOfParticleInit w (newNsInit w s))
        = (succeededPaths w).map w.loadLibrary
    ∧ (created (eventsOfNsInit w s)).map (fun o => o.path) = succeededPaths w
    ∧ created (eventsOfParticleInit w (newNsInit w s)) = []
    ∧ handed (eventsOfNsInit w s)
        = (created (eventsOfNsInit w s)).filterMap (entryFor w "preEngineInit")
    ∧ handed (eventsOfParticleInit w (newNsInit w s))
        = (created (eventsOfNsInit w s)).filterMap (entryFor w "postEngineInit") := by
  have hl : (newNsInit w s).loadedPlugins = loadedFrom w s.heapTop w.listing := by
    rw [newNsInit_eq]; simp [h]
  have hc := created_nsInitEvents w s
  simp only [eventsOfNsInit_eq, eventsOfParticleInit_eq, hc]
  refine ⟨?_, ?_, ?_, ?_, ?_, ?_, ?_, ?_⟩
  · unfold initMessages
    rw [filterMap_nsInitEvents _ w s initMessageOf_math initMessageOf_discovery
      initMessageOf_override (fun _ => rfl), initMessages_initEvents, h]
    simp [initMessageOf, succeededPaths, loadedFrom_path]
  · unfold initMessages
    rw [filterMap_particleInitEvents _ w _ initMessageOf_flag (fun _ => rfl),
      initMessages_initEvents, hl]
    simp [initMessageOf, succeededPaths, loadedFrom_path]
  · unfold lookupsOf
    rw [filterMap_nsInitEvents _ w s (lookupOf_math _ (by decide)) (lookupOf_discovery _)
      (lookupOf_override _ (by decide)) (fun _ => rfl), lookupsOf_initEvents, h]
    simp [lookupOf, succeededPaths, loadedFrom_modules, loadedFrom_path]
  · unfold lookupsOf
    rw [filterMap_particleInitEvents _ w _ (lookupOf_flag _) (fun _ => rfl),
      lookupsOf_initEvents, hl]
    simp [lookupOf, succeededPaths, loadedFrom_modules, loadedFrom_path]
  · rw [loadedFrom_interface_path, loadedFrom_path]
    rfl
  · unfold created
    rw [filterMap_particleInitEvents _ w _ createdOf_flag (fun _ => rfl),
      filterMap_initEvents _ w _ _ (createdOf_stage _)]
    simp [createdOf]
  · unfold handed
    rw [filterMap_nsInitEvents _ w s handedOf_math handedOf_discovery
      handedOf_override (fun _ => rfl), handed_initEvents, h,
      ← filterMap_exported_loadedFrom]
    simp [handedOf]
  · unfold handed
    rw [filterMap_particleInitEvents _ w _ handedOf_flag (fun _ => rfl),
      handed_initEvents, hl, ← filterMap_exported_loadedFrom]
    simp [handedOf]

/-- In the sample world `a.dll` and `c.dll` load and `bad.dll` does not: both
stages visit `plugins/a.dll` then `plugins/c.dll`. -/
theorem stages_visit_loaded_plugins_in_listing_order_witness :
    (Loader.initial sampleWorld).loadedPlugins = []
    ∧ initMessages (eventsOfNsInit sampleWorld (Loader.initial sampleWorld))
        = ["plugins/a.dll", "plugins/c.dll"]
    ∧ initMessages (eventsOfParticleInit sampleWorld
        (newNsInit sampleWorld (Loader.initial sampleWorld))) = ["plugins/a.dll", "plugins/c.dll"] := by
  have h := stages_visit_loaded_plugins_in_listing_order sampleWorld (Loader.initial sampleWorld) rfl
  have hp : succeededPaths sampleWorld = ["plugins/a.dll", "plugins/c.dll"] := by decide
  rw [hp] at h
  exact ⟨rfl, h.1, h.2.1⟩

/-! ## The `Plugin::Loaded` flags -/

/-- C2 as stated fails: with the listing `["foo.dll"]` and a successful load the
file stem is `foo`, so the flag the claim names is `Plugin::Loadedfoo`, but the
one variable `setPluginVariables` sets is `Plugin::Loadedplugins/foo`: the
stored path keeps the `plugins/` directory and only the extension is erased. -/
theorem loaded_flag_keeps_plugin_directory :
    flagsSet (eventsOfParticleInit fooWorld (newNsInit fooWorld (Loader.initial fooWorld)))
        = [("Plugin::Loadedplugins/foo", true)]
    ∧ (newNsInit fooWorld (Loader.initial fooWorld)).loadedPlugins.map (fun p => fileStem p.path)
        = ["foo"]
    ∧ ("Plugin::Loaded" ++ fileStem "plugins/foo.dll", true)
        ∉ flagsSet (eventsOfParticleInit fooWorld (newNsInit fooWorld (Loader.initial fooWorld))) := by
  decide

/-! ## The compatibility guard -/

/-- C8: `verifyGame` returns true exactly when the region query for address
`0x6796C4` succeeds, the protection value is non-zero with neither the
no-access bit nor the execute-only bit set, and the 12 bytes at that address
are those of `"Marble Blast"`; it always queries the region first, and it reads
the bytes (once, after the query) exactly when the region checks pass. -/
theorem verifyGame_true_iff_region_readable_and_bytes_match (w : World) (s : Loader) :
    ((verifyGame w s).1 = true ↔
      regionReadable w ∧ readBytes w 0x6796C4 12 = strBytes "Marble Blast")
    ∧ strBytes "Marble Blast" = [77, 97, 114, 98, 108, 101, 32, 66, 108, 97, 115, 116]
    ∧ (verifyGame w s).2.trace = s.trace ++ eventsOfVerifyGame w s
    ∧ (regionReadable w →
        eventsOfVerifyGame w s = [.virtualQuery 0x6796C4 sizeofMemInfo, .memcmp 0x6796C4 12])
    ∧ (¬ regionReadable w →
        eventsOfVerifyGame w s = [.virtualQuery 0x6796C4 sizeofMemInfo]) := by
  have hlen : (readBytes w testPointer (strlen testStr)).length = (strBytes testStr).length := by
    rw [readBytes_length]; rfl
  have hm := memcmp_eq_zero_iff _ _ hlen
  have hr := region_checks_iff w
  have hb : strBytes "Marble Blast" = [77, 97, 114, 98, 108, 101, 32, 66, 108, 97, 115, 116] := by
    decide
  have hq : Event.virtualQuery testPointer sizeofMemInfo = .virtualQuery 0x6796C4 sizeofMemInfo := rfl
  have hc : Event.memcmp testPointer (strlen testStr) = .memcmp 0x6796C4 12 := rfl
  have hbytes : (readBytes w testPointer (strlen testStr) = strBytes testStr)
      = (readBytes w 0x6796C4 12 = strBytes "Marble Blast") := rfl
  by_cases h1 : (w.virtualQuery testPointer).1 ≠ sizeofMemInfo
  · have hnr : ¬ regionReadable w := fun h => (hr.mpr h).1 h1
    have hv : verifyGame w s = (false, s.emit (.virtualQuery testPointer sizeofMemInfo)) := by
      unfold verifyGame
      simp [h1]
    unfold eventsOfVerifyGame
    rw [hv, hq]
    simp [hnr, Loader.emit, hb]
  · by_cases h2 : ((w.virtualQuery testPointer).2.Protect = 0
        ∨ (w.virtualQuery testPointer).2.Protect &&& PAGE_NOACCESS ≠ 0
        ∨ (w.virtualQuery testPointer).2.Protect &&& PAGE_EXECUTE ≠ 0)
    · have hnr : ¬ regionReadable w := fun h => (hr.mpr h).2 h2
      have hv : verifyGame w s = (false, s.emit (.virtualQuery testPointer sizeofMemInfo)) := by
        unfold verifyGame
        rw [if_neg h1, if_pos h2]
      unfold eventsOfVerifyGame
      rw [hv, hq]
      simp [hnr, Loader.emit, hb]
    · have hrr : regionReadable w := hr.mp ⟨h1, h2⟩
      by_cases h3 : memcmp (readBytes w testPointer (strlen testStr)) (strBytes testStr) = 0
      · have h4 := hm.mp h3
        rw [hbytes] at h4
        have hv : verifyGame w s = (true, (s.emit (.virtualQuery testPointer sizeofMemInfo)).emit
            (.memcmp testPointer (strlen testStr))) := by
          unfold verifyGame
          rw [if_neg h1, if_neg h2]
          simp [h3]
        unfold eventsOfVerifyGame
        rw [hv, hq, hc]
        simp [hrr, Loader.emit, hb, h4]
      · have h4 : ¬ readBytes w 0x6796C4 12 = strBytes "Marble Blast" := by
          rw [← hbytes]
          exact fun h => h3 (hm.mpr h)
        have hv : verifyGame w s = (false, (s.emit (.virtualQuery testPointer sizeofMemInfo)).emit
            (.memcmp testPointer (strlen testStr))) := by
          unfold verifyGame
          rw [if_neg h1, if_neg h2]
          simp [h3]
        unfold eventsOfVerifyGame
        rw [hv, hq, hc]
        simp [hrr, Loader.emit, h4]
        exact hb

/-- C3: when `verifyGame` returns false, `initPluginLoader` returns 0, makes no
`hook.intercept` call, no `FindFirstFile` call, no `LoadLibrary` call and
constructs no plugin interface, shows the error box exactly once, and leaves
`loadedPlugins`, `mathLib` and the three `original...` pointers as they were. -/
theorem guard_failure_installs_nothing (w : World) (s : Loader)
    (h : (verifyGame w s).1 = false) :
    (initPluginLoader w s).1 = 0
    ∧ (initPluginLoader w s).2.trace = s.trace ++ eventsOfInitPluginLoader w s
    ∧ intercepts (eventsOfInitPluginLoader w s) = []
    ∧ searches (eventsOfInitPluginLoader w s) = []
    ∧ loadAttempts (eventsOfInitPluginLoader w s) = []
    ∧ created (eventsOfInitPluginLoader w s) = []
    ∧ messageBoxes (eventsOfInitPluginLoader w s) =
        [("MBExtender is only compatible with the full version of Marble Blast Gold.",
          "MBExtender", 0x10)]
    ∧ (initPluginLoader w s).2.loadedPlugins = s.loadedPlugins
    ∧ (initPluginLoader w s).2.mathLib = s.mathLib
    ∧ (initPluginLoader w s).2.originalNsInit = s.originalNsInit
    ∧ (initPluginLoader w s).2.originalParticleInit = s.originalParticleInit
    ∧ (initPluginLoader w s).2.originalClientProcess = s.originalClientProcess := by
  obtain ⟨V, hV, hk⟩ := verifyGame_state w s
  have hi : initPluginLoader w s = (0, { s with trace := s.trace ++ (V ++ [.messageBox
      "MBExtender is only compatible with the full version of Marble Blast Gold."
      "MBExtender" MB_OK_ICONERROR]) }) := by
    unfold initPluginLoader
    simp [h, hV, Loader.emit]
  have hT : eventsOfInitPluginLoader w s = V ++ [.messageBox
      "MBExtender is only compatible with the full version of Marble Blast Gold."
      "MBExtender" MB_OK_ICONERROR] := by
    simp [eventsOfInitPluginLoader, hi]
  have hn : ∀ {α : Type} (f : Event → Option α), (∀ e, isGuardStep e = true → f e = none) →
      V.filterMap f = [] := fun f hf => filterMap_none_of_forall f V (fun e he => hf e (hk e he))
  rw [hT]
  refine ⟨by rw [hi], by rw [hi], ?_, ?_, ?_, ?_, ?_, by rw [hi], by rw [hi], by rw [hi],
    by rw [hi], by rw [hi]⟩
  · unfold intercepts
    rw [List.filterMap_append, hn _ interceptOf_guard]
    rfl
  · unfold searches
    rw [List.filterMap_append, hn _ searchOf_guard]
    rfl
  · unfold loadAttempts
    rw [List.filterMap_append, hn _ loadAttemptOf_guard]
    rfl
  · unfold created
    rw [List.filterMap_append, hn _ createdOf_guard]
    rfl
  · unfold messageBoxes
    rw [List.filterMap_append, hn _ messageBoxOf_guard]
    rfl

/-- In the sample world with other bytes at the test address the guard fails and
`initPluginLoader` returns 0 after one error box. -/
theorem guard_failure_installs_nothing_witness :
    (verifyGame sampleWorldOtherHost (Loader.initial sampleWorldOtherHost)).1 = false
    ∧ (initPluginLoader sampleWorldOtherHost (Loader.initial sampleWorldOtherHost)).1 = 0
    ∧ intercepts (eventsOfInitPluginLoader sampleWorldOtherHost
        (Loader.initial sampleWorldOtherHost)) = [] :=
  have h := guard_failure_installs_nothing sampleWorldOtherHost
    (Loader.initial sampleWorldOtherHost) (by decide)
  ⟨by decide, h.1, h.2.2.1⟩

/-- C10: `initPluginLoader` returns 1 exactly when `verifyGame` returns true
(and 0 otherwise); in that case it calls `hook.intercept` exactly three times,
for `Namespace::init`, `ParticleEngine::init` and `clientProcess` in this
order, each with its replacement, stores what each call returned in the
matching `original...` pointer whatever that value is, and shows no error box. -/
theorem guard_success_installs_three_hooks (w : World) (s : Loader) :
    ((initPluginLoader w s).1 = 1 ↔ (verifyGame w s).1 = true)
    ∧ ((initPluginLoader w s).1 = 0 ↔ (verifyGame w s).1 = false)
    ∧ ((verifyGame w s).1 = true →
        (initPluginLoader w s).2.trace = s.trace ++ eventsOfInitPluginLoader w s
        ∧ intercepts (eventsOfInitPluginLoader w s) =
            [(w.tgeNamespaceInit, Replacement.newNsInit),
              (w.tgeParticleEngineInit, Replacement.newParticleInit),
              (w.tgeClientProcess, Replacement.newClientProcess)]
        ∧ (initPluginLoader w s).2.originalNsInit = w.intercept w.tgeNamespaceInit .newNsInit
        ∧ (initPluginLoader w s).2.originalParticleInit
            = w.intercept w.tgeParticleEngineInit .newParticleInit
        ∧ (initPluginLoader w s).2.originalClientProcess
            = w.intercept w.tgeClientProcess .newClientProcess
        ∧ messageBoxes (eventsOfInitPluginLoader w s) = []
        ∧ (initPluginLoader w s).2.loadedPlugins = s.loadedPlugins) := by
  obtain ⟨V, hV, hk⟩ := verifyGame_state w s
  have hn : ∀ {α : Type} (f : Event → Option α), (∀ e, isGuardStep e = true → f e = none) →
      V.filterMap f = [] := fun f hf => filterMap_none_of_forall f V (fun e he => hf e (hk e he))
  cases hg : (verifyGame w s).1 with
  | false =>
    have hi : (initPluginLoader w s).1 = 0 := by
      unfold initPluginLoader
      simp [hg]
    simp [hi]
  | true =>
    have hi : initPluginLoader w s = (1, { s with
        originalNsInit := w.intercept w.tgeNamespaceInit .newNsInit
        originalParticleInit := w.intercept w.tgeParticleEngineInit .newParticleInit
        originalClientProcess := w.intercept w.tgeClientProcess .newClientProcess
        trace := s.trace ++ (V ++ [.intercept w.tgeNamespaceInit .newNsInit,
          .intercept w.tgeParticleEngineInit .newParticleInit,
          .intercept w.tgeClientProcess .newClientProcess]) }) := by
      unfold initPluginLoader
      simp [hg, hV, Loader.emit]
    have hT : eventsOfInitPluginLoader w s = V ++ [.intercept w.tgeNamespaceInit .newNsInit,
          .intercept w.tgeParticleEngineInit .newParticleInit,
          .intercept w.tgeClientProcess .newClientProcess] := by
      simp [eventsOfInitPluginLoader, hi]
    rw [hT]
    refine ⟨by rw [hi]; simp, by rw [hi]; simp, fun _ => ⟨by rw [hi], ?_, by rw [hi], by rw [hi],
      by rw [hi], ?_, by rw [hi]⟩⟩
    · unfold intercepts
      rw [List.filterMap_append, hn _ interceptOf_guard]
      rfl
    · unfold messageBoxes
      rw [List.filterMap_append, hn _ messageBoxOf_guard]
      rfl

/-- In the sample world the guard passes, `initPluginLoader` returns 1 and the
three hooks are installed in order. -/
theorem guard_success_installs_three_hooks_witness :
    (verifyGame sampleWorld (Loader.initial sampleWorld)).1 = true
    ∧ (initPluginLoader sampleWorld (Loader.initial sampleWorld)).1 = 1
    ∧ intercepts (eventsOfInitPluginLoader sampleWorld (Loader.initial sampleWorld)) =
        [(0x401000, Replacement.newNsInit), (0x402000, Replacement.newParticleInit),
          (0x403000, Replacement.newClientProcess)] :=
  have h := guard_success_installs_three_hooks sampleWorld (Loader.initial sampleWorld)
  ⟨by decide, h.1.mpr (by decide), (h.2.2 (by decide)).2.1⟩

/-! ## The per-frame hook -/

/-- C7: for every time delta and every list of registered callbacks (the empty
list included), `newClientProcess` calls `executeProcessList` exactly once with
the delta, then the registered callbacks run in registration order, and last of
all the original host function is called, exactly once and with the same delta. -/
theorem client_process_dispatches_then_calls_original (w : World) (timeDelta : Nat) (s : Loader) :
    (newClientProcess w timeDelta s).trace = s.trace ++ eventsOfClientProcess w timeDelta s
    ∧ eventsOfClientProcess w timeDelta s =
        .executeProcessList timeDelta ::
          (w.processList.map (fun fn => Event.processCallback fn timeDelta) ++
            [.originalClientProcess s.originalClientProcess timeDelta])
    ∧ (eventsOfClientProcess w timeDelta s).filter isExecuteProcessList
        = [.executeProcessList timeDelta]
    ∧ (eventsOfClientProcess w timeDelta s).filter isOriginalClientProcess
        = [.originalClientProcess s.originalClientProcess timeDelta]
    ∧ (eventsOfClientProcess w timeDelta s).getLast?
        = some (.originalClientProcess s.originalClientProcess timeDelta)
    ∧ allBefore isExecuteProcessList isOriginalClientProcess
        (eventsOfClientProcess w timeDelta s) = true := by
  have hT : eventsOfClientProcess w timeDelta s = .executeProcessList timeDelta ::
          (w.processList.map (fun fn => Event.processCallback fn timeDelta) ++
            [.originalClientProcess s.originalClientProcess timeDelta]) := by
    simp [eventsOfClientProcess, newClientProcess_eq]
  have hf1 : (w.processList.map (fun fn => Event.processCallback fn timeDelta)).filter
      isExecuteProcessList = [] := by
    simp [List.filter_eq_nil_iff, isExecuteProcessList]
  have hf2 : (w.processList.map (fun fn => Event.processCallback fn timeDelta)).filter
      isOriginalClientProcess = [] := by
    simp [List.filter_eq_nil_iff, isOriginalClientProcess]
  rw [hT]
  refine ⟨by rw [newClientProcess_eq], rfl, ?_, ?_, ?_, ?_⟩
  · simp [List.filter_cons, List.filter_append, hf1, isExecuteProcessList]
  · simp [List.filter_cons, List.filter_append, hf2, isOriginalClientProcess]
  · simp [List.getLast?_cons, List.getLast?_append]
  · have hsplit : Event.executeProcessList timeDelta ::
          (w.processList.map (fun fn => Event.processCallback fn timeDelta) ++
            [.originalClientProcess s.originalClientProcess timeDelta])
        = (Event.executeProcessList timeDelta ::
            w.processList.map (fun fn => Event.processCallback fn timeDelta)) ++
          [.originalClientProcess s.originalClientProcess timeDelta] := by simp
    rw [hsplit]
    apply allBefore_append
    · intro e he
      rcases List.mem_cons.mp he with rfl | he
      · rfl
      · obtain ⟨fn, _, rfl⟩ := List.mem_map.mp he
        rfl
    · intro e he
      rw [List.mem_singleton] at he
      subst he
      rfl

/-! ## Order of events in `newNsInit` -/

/-- C5 as stated fails: in the sample world the first event of `newNsInit` is
the call of the original host function, so the support-module steps and the
plugin discovery and load steps come after it and not before it. -/
theorem original_ns_init_is_not_called_after_plugin_loading :
    (eventsOfNsInit sampleWorld (Loader.initial sampleWorld)).head?
        = some (.originalNsInit 0x401000)
    ∧ allBefore isDiscoveryStep isOriginalNsInit
        (eventsOfNsInit sampleWorld (Loader.initial sampleWorld)) = false
    ∧ allBefore isMathStep isOriginalNsInit
        (eventsOfNsInit sampleWorld (Loader.initial sampleWorld)) = false
    ∧ allBefore isOverrideStep isOriginalNsInit
        (eventsOfNsInit sampleWorld (Loader.initial sampleWorld)) = false := by
  decide

/-- C5 amended: when `newNsInit` fires the original host namespace init is
called first and exactly once; then the support module is loaded and, if it
loaded and exports `init`, `init` is called (once); then the plugin directory is
searched (once) and every listed file is loaded in listing order, the loaded
list gaining the files whose load succeeded; then, if the support module loaded,
its `installUserOverrides` export is looked up and, if present, called (once);
then Stage 1 visits every loaded plugin in list order, looks `preEngineInit` up
in each, calls it with the plugin's interface where it exists and warns where
it does not.  No step of a later group occurs before a step of an earlier one. -/
theorem ns_init_calls_original_first_then_loads_then_stage1 (w : World) (s : Loader) :
    (newNsInit w s).trace = s.trace ++ eventsOfNsInit w s
    ∧ (eventsOfNsInit w s).head? = some (.originalNsInit s.originalNsInit)
    ∧ (eventsOfNsInit w s).filter isOriginalNsInit = [.originalNsInit s.originalNsInit]
    ∧ allBefore isOriginalNsInit isMathStep (eventsOfNsInit w s) = true
    ∧ allBefore isOriginalNsInit isDiscoveryStep (eventsOfNsInit w s) = true
    ∧ allBefore isOriginalNsInit (isStageStep "preEngineInit") (eventsOfNsInit w s) = true
    ∧ allBefore isMathStep isDiscoveryStep (eventsOfNsInit w s) = true
    ∧ allBefore isDiscoveryStep isOverrideStep (eventsOfNsInit w s) = true
    ∧ allBefore isOverrideStep (isStageStep "preEngineInit") (eventsOfNsInit w s) = true
    ∧ allBefore isDiscoveryStep (isStageStep "preEngineInit") (eventsOfNsInit w s) = true
    ∧ allBefore isMathStep (isStageStep "preEngineInit") (eventsOfNsInit w s) = true
    ∧ loadAttempts (eventsOfNsInit w s) = MATH_LIB :: w.listing.map (fun f => PLUGIN_DIR ++ f)
    ∧ (newNsInit w s).mathLib = w.loadLibrary MATH_LIB
    ∧ lookupsOf "init" (eventsOfNsInit w s)
        = (if w.loadLibrary MATH_LIB ≠ 0 then [w.loadLibrary MATH_LIB] else [])
    ∧ mathInits (eventsOfNsInit w s)
        = (if w.loadLibrary MATH_LIB ≠ 0 ∧ w.getProcAddress (w.loadLibrary MATH_LIB) "init" ≠ 0
            then [w.getProcAddress (w.loadLibrary MATH_LIB) "init"] else [])
    ∧ searches (eventsOfNsInit w s) = [PLUGIN_FILTER]
    ∧ (created (eventsOfNsInit w s)).map (fun o => o.path) = succeededPaths w
    ∧ (newNsInit w s).loadedPlugins.map (fun p => p.path)
        = s.loadedPlugins.map (fun p => p.path) ++ succeededPaths w
    ∧ lookupsOf "installUserOverrides" (eventsOfNsInit w s)
        = (if w.loadLibrary MATH_LIB ≠ 0 then [w.loadLibrary MATH_LIB] else [])
    ∧ overrideCalls (eventsOfNsInit w s)
        = (if w.loadLibrary MATH_LIB ≠ 0
              ∧ w.getProcAddress (w.loadLibrary MATH_LIB) "installUserOverrides" ≠ 0
            then [w.getProcAddress (w.loadLibrary MATH_LIB) "installUserOverrides"] else [])
    ∧ initMessages (eventsOfNsInit w s) = (newNsInit w s).loadedPlugins.map (fun p => p.path)
    ∧ lookupsOf "preEngineInit" (eventsOfNsInit w s)
        = (newNsInit w s).loadedPlugins.map (fun p => p.module)
    ∧ handed (eventsOfNsInit w s)
        = (newNsInit w s).loadedPlugins.filterMap (exported w "preEngineInit")
    ∧ warnings (eventsOfNsInit w s)
        = (newNsInit w s).loadedPlugins.filterMap (missing w "preEngineInit") := by
  have hlp : (newNsInit w s).loadedPlugins = s.loadedPlugins ++ loadedFrom w s.heapTop w.listing := by
    rw [newNsInit_eq]
  have hml : (newNsInit w s).mathLib = w.loadLibrary MATH_LIB := by
    rw [newNsInit_eq]
  have hM := mathEvents_steps w
  have hD := discoveryEvents_steps w s.heapTop
  have hO := overrideEvents_steps w (w.loadLibrary MATH_LIB)
  have hpre1 : ("preEngineInit" : String) ≠ "init" := by decide
  have hpre2 : ("preEngineInit" : String) ≠ "installUserOverrides" := by decide
  have horig : ∀ e ∈ (Event.printf "MBExtender Init:" [] :: (mathEvents w ++
      (discoveryEvents w s.heapTop ++ (overrideEvents w (w.loadLibrary MATH_LIB) ++
        .printf "" [] ::
          stageEvents w "MBExtender: Initializing Plugins, Stage 1:" "preEngineInit"
            (s.loadedPlugins ++ loadedFrom w s.heapTop w.listing))))),
      isOriginalNsInit e = false := by
    intro e he
    rcases List.mem_cons.mp he with rfl | he
    · rfl
    · rcases List.mem_append.mp he with he | he
      · exact not_originalNsInit_of _ (fun _ => rfl) e (hM e he)
      · rcases List.mem_append.mp he with he | he
        · exact not_originalNsInit_of _ (fun _ => rfl) e (hD e he)
        · rcases List.mem_append.mp he with he | he
          · exact not_originalNsInit_of _ (fun _ => rfl) e (hO e he)
          · exact stage1_none _ w _
              (not_originalNsInit_of _ (fun _ => rfl)) rfl rfl e he
  rw [eventsOfNsInit_eq]
  refine ⟨by rw [newNsInit_eq], rfl, ?_, ?_, ?_, ?_, ?_, ?_, ?_, ?_, ?_, ?_, hml,
    lookupsOf_init_nsInitEvents w s, ?_, searches_nsInitEvents w s, ?_, ?_,
    lookupsOf_overrides_nsInitEvents w s, overrideCalls_nsInitEvents w s, ?_, ?_, ?_, ?_⟩
  · unfold nsInitEvents
    rw [List.filter_cons]
    simp only [isOriginalNsInit, ↓reduceIte]
    rw [List.filter_eq_nil_iff.mpr (fun e he => by simp [horig e he])]
  · exact nsInit_allBefore_cut1 _ _ w s (fun _ => rfl)
      (fun e he => horig e (by
        rcases List.mem_cons.mp he with rfl | he
        · exact List.mem_cons_self _ _
        · exact List.mem_cons_of_mem _ (List.mem_append_left _ he)))
      (fun e he => not_originalNsInit_of _ (fun _ => rfl) e (hD e he))
      (fun e he => not_originalNsInit_of _ (fun _ => rfl) e (hO e he))
      (stage1_none _ w _ (not_originalNsInit_of _ (fun _ => rfl)) rfl rfl)
  · exact nsInit_allBefore_cut1 _ _ w s (fun _ => rfl)
      (math_segment_none _ w (not_originalNsInit_of _ (fun _ => rfl)) rfl)
      (fun e he => not_originalNsInit_of _ (fun _ => rfl) e (hD e he))
      (fun e he => not_originalNsInit_of _ (fun _ => rfl) e (hO e he))
      (stage1_none _ w _ (not_originalNsInit_of _ (fun _ => rfl)) rfl rfl)
  · exact nsInit_allBefore_cut1 _ _ w s (fun _ => rfl)
      (math_segment_none _ w (not_originalNsInit_of _ (fun _ => rfl)) rfl)
      (fun e he => not_originalNsInit_of _ (fun _ => rfl) e (hD e he))
      (fun e he => not_originalNsInit_of _ (fun _ => rfl) e (hO e he))
      (stage1_none _ w _ (not_originalNsInit_of _ (fun _ => rfl)) rfl rfl)
  · exact nsInit_allBefore_cut2 _ _ w s (fun _ => rfl)
      (math_segment_none _ w math_not_discovery rfl)
      (fun e he => discovery_not_math e (hD e he))
      (fun e he => override_not_math e (hO e he))
      (stage1_none _ w _ (stage_not_math _ hpre1) rfl rfl)
  · exact nsInit_allBefore_cut3 _ _ w s (fun _ => rfl)
      (math_segment_none _ w math_not_override rfl)
      (fun e he => discovery_not_override e (hD e he))
      (fun e he => override_not_discovery e (hO e he))
      (stage1_none _ w _ (stage_not_discovery _) rfl rfl)
  · exact nsInit_allBefore_cut4 _ _ w s (fun _ => rfl)
      (math_segment_none _ w (math_not_stage _ hpre1) rfl)
      (fun e he => discovery_not_stage _ e (hD e he))
      (fun e he => override_not_stage _ hpre2 e (hO e he)) rfl
      (fun e he => stage1_none _ w _ (stage_not_override _ hpre2) rfl rfl
        e (List.mem_cons_of_mem _ he))
  · exact nsInit_allBefore_cut4 _ _ w s (fun _ => rfl)
      (math_segment_none _ w (math_not_stage _ hpre1) rfl)
      (fun e he => discovery_not_stage _ e (hD e he))
      (fun e he => override_not_stage _ hpre2 e (hO e he)) rfl
      (fun e he => stage1_none _ w _ (stage_not_discovery _) rfl rfl
        e (List.mem_cons_of_mem _ he))
  · exact nsInit_allBefore_cut4 _ _ w s (fun _ => rfl)
      (math_segment_none _ w (math_not_stage _ hpre1) rfl)
      (fun e he => discovery_not_stage _ e (hD e he))
      (fun e he => override_not_stage _ hpre2 e (hO e he)) rfl
      (fun e he => stage1_none _ w _ (stage_not_math _ hpre1) rfl rfl
        e (List.mem_cons_of_mem _ he))
  · exact loadAttempts_nsInitEvents w s
  · rw [mathInits_nsInitEvents, mathInits_mathEvents]
  · rw [created_nsInitEvents, loadedFrom_interface_path, loadedFrom_path]
    rfl
  · rw [hlp, List.map_append, loadedFrom_path]
    rfl
  · rw [initMessages_nsInitEvents, hlp]
  · rw [lookupsOf_pre_nsInitEvents, hlp]
  · rw [handed_nsInitEvents, hlp]
  · rw [warnings_nsInitEvents, hlp]

/-! ## Order of events in `newParticleInit` -/

/-- C6: when `newParticleInit` fires, the original host particle-engine init is
called first and exactly once; then `postEngineInit` is looked up for every
loaded plugin in list order; every Stage 2 step precedes every
`setBoolVariable` call; and, every stored path having an extension (which the
`*.dll` search filter ensures), the function returns after setting one flag per
loaded plugin, in list order, each to true and each under the name computed
from that plugin's path. -/
theorem particle_init_calls_original_then_stage2_then_flags (w : World) (s : Loader)
    (hdot : ∀ p ∈ s.loadedPlugins, '.' ∈ p.path.data) :
    newParticleInit w s = .ok (finalState (newParticleInit w s))
    ∧ (finalState (newParticleInit w s)).trace = s.trace ++ eventsOfParticleInit w s
    ∧ (eventsOfParticleInit w s).head? = some (.originalParticleInit s.originalParticleInit)
    ∧ (eventsOfParticleInit w s).filter isOriginalParticleInit
        = [.originalParticleInit s.originalParticleInit]
    ∧ initMessages (eventsOfParticleInit w s) = s.loadedPlugins.map (fun p => p.path)
    ∧ lookupsOf "postEngineInit" (eventsOfParticleInit w s)
        = s.loadedPlugins.map (fun p => p.module)
    ∧ handed (eventsOfParticleInit w s) = s.loadedPlugins.filterMap (exported w "postEngineInit")
    ∧ allBefore (isStageStep "postEngineInit") isFlagStep (eventsOfParticleInit w s) = true
    ∧ (flagsSet (eventsOfParticleInit w s)).length = s.loadedPlugins.length
    ∧ (flagsSet (eventsOfParticleInit w s)).map (fun f => some f.1)
        = s.loadedPlugins.map (fun p => pluginVarName p.path)
    ∧ (flagsSet (eventsOfParticleInit w s)).map (fun f => f.2)
        = s.loadedPlugins.map (fun _ => true) := by
  have hS := stage2_none
  have hflags := flagEvents_names s.loadedPlugins hdot
  have hF : flagsSet (particleInitEvents w s) = (flagEvents s.loadedPlugins).filterMap flagOf := by
    unfold flagsSet particleInitEvents
    rw [List.filterMap_cons, List.filterMap_append, filterMap_stageEvents _ w _ _ _ rfl rfl,
      filterMap_initEvents _ w _ _ (flagOf_stage _)]
    simp [flagOf]
  have hok : newParticleInit w s = .ok (finalState (newParticleInit w s)) := by
    unfold newParticleInit setPluginVariables
    have hl : (pluginPostInit w (s.emit (.originalParticleInit s.originalParticleInit))).loadedPlugins
        = s.loadedPlugins := by
      rw [pluginPostInit_eq]; rfl
    exact setPluginVariablesLoop_ok _ _ (by rw [hl]; exact hdot)
  rw [eventsOfParticleInit_eq, hF]
  refine ⟨hok, by rw [newParticleInit_final], rfl, ?_, ?_, ?_, ?_, ?_, ?_, hflags.1, hflags.2⟩
  · unfold particleInitEvents
    rw [List.filter_cons]
    simp only [isOriginalParticleInit, ↓reduceIte]
    rw [List.filter_eq_nil_iff.mpr]
    intro e he
    rcases List.mem_append.mp he with he | he
    · simp [hS _ w _ (not_originalParticleInit_of _ (fun _ => rfl)) rfl rfl e he]
    · simp [not_originalParticleInit_of _ (fun _ => rfl) e (flagEvents_steps _ e he)]
  · unfold initMessages
    rw [filterMap_particleInitEvents _ w _ initMessageOf_flag (fun _ => rfl),
      initMessages_initEvents]
    simp [initMessageOf]
  · unfold lookupsOf
    rw [filterMap_particleInitEvents _ w _ (lookupOf_flag _) (fun _ => rfl),
      lookupsOf_initEvents]
    simp [lookupOf]
  · unfold handed
    rw [filterMap_particleInitEvents _ w _ handedOf_flag (fun _ => rfl), handed_initEvents]
    simp [handedOf]
  · have hsplit : particleInitEvents w s =
        (.originalParticleInit s.originalParticleInit ::
          stageEvents w "MBExtender: Initializing Plugins, Stage 2:" "postEngineInit" s.loadedPlugins)
          ++ flagEvents s.loadedPlugins := by
      simp [particleInitEvents]
    rw [hsplit]
    apply allBefore_append
    · intro e he
      rcases List.mem_cons.mp he with rfl | he
      · rfl
      · exact hS isFlagStep w _ (stage_not_flag _) rfl rfl e he
    · intro e he
      exact flag_not_stage _ e (flagEvents_steps _ e he)
  · have := congrArg List.length hflags.1
    simpa using this

/-- After `newNsInit` in the sample world both loaded paths have an extension;
`newParticleInit` then returns and sets two flags. -/
theorem particle_init_calls_original_then_stage2_then_flags_witness :
    (∀ p ∈ (newNsInit sampleWorld (Loader.initial sampleWorld)).loadedPlugins, '.' ∈ p.path.data)
    ∧ (flagsSet (eventsOfParticleInit sampleWorld
        (newNsInit sampleWorld (Loader.initial sampleWorld)))).length = 2
    ∧ allBefore (isStageStep "postEngineInit") isFlagStep (eventsOfParticleInit sampleWorld
        (newNsInit sampleWorld (Loader.initial sampleWorld))) = true :=
  have hd : ∀ p ∈ (newNsInit sampleWorld (Loader.initial sampleWorld)).loadedPlugins,
      '.' ∈ p.path.data := by decide
  have h := particle_init_calls_original_then_stage2_then_flags sampleWorld
    (newNsInit sampleWorld (Loader.initial sampleWorld)) hd
  ⟨hd, h.2.2.2.2.2.2.2.2.1.trans (by decide), h.2.2.2.2.2.2.2.1⟩

/-! ## The support module -/

/-- C9: if the support module fails to load, or loads without exporting `init`,
`loadMathLibrary` logs exactly one error and `init` is never called; if it
loads and exports `init`, no error is logged by `loadMathLibrary` and `init` is
called exactly once.  Either way every support-module step precedes every
plugin discovery or load step, `LoadLibrary` is attempted for the support
module and then for every listed file in order, and two worlds that agree on
the listing, on which plugin files load and on the `preEngineInit` exports
(whatever happens to the support module in each) get the same load attempts,
the same plugin interfaces, the same loaded list and the same Stage 1 visits
and callbacks. -/
theorem support_module_failure_is_logged_once_and_plugins_proceed (w1 w2 : World) (s : Loader)
    (hl : w1.listing = w2.listing)
    (hload : ∀ f, w1.loadLibrary (PLUGIN_DIR ++ f) = w2.loadLibrary (PLUGIN_DIR ++ f))
    (hpre : ∀ m, w1.getProcAddress m "preEngineInit" = w2.getProcAddress m "preEngineInit") :
    ((w1.loadLibrary MATH_LIB = 0 ∨ w1.getProcAddress (w1.loadLibrary MATH_LIB) "init" = 0) →
        errors (eventsOfLoadMathLibrary w1 s)
          = ["   Unable to load TorqueLib.dll! Some plugins may fail to load!"]
        ∧ mathInits (eventsOfNsInit w1 s) = [])
    ∧ ((w1.loadLibrary MATH_LIB ≠ 0 ∧ w1.getProcAddress (w1.loadLibrary MATH_LIB) "init" ≠ 0) →
        errors (eventsOfLoadMathLibrary w1 s) = []
        ∧ mathInits (eventsOfNsInit w1 s) = [w1.getProcAddress (w1.loadLibrary MATH_LIB) "init"])
    ∧ allBefore isMathStep isDiscoveryStep (eventsOfNsInit w1 s) = true
    ∧ loadAttempts (eventsOfNsInit w1 s) = MATH_LIB :: w1.listing.map (fun f => PLUGIN_DIR ++ f)
    ∧ loadAttempts (eventsOfNsInit w1 s) = loadAttempts (eventsOfNsInit w2 s)
    ∧ created (eventsOfNsInit w1 s) = created (eventsOfNsInit w2 s)
    ∧ (newNsInit w1 s).loadedPlugins = (newNsInit w2 s).loadedPlugins
    ∧ initMessages (eventsOfNsInit w1 s) = initMessages (eventsOfNsInit w2 s)
    ∧ handed (eventsOfNsInit w1 s) = handed (eventsOfNsInit w2 s) := by
  have hL := loadedFrom_congr w1 w2 hload w1.listing s.heapTop
  have hL2 : loadedFrom w2 s.heapTop w1.listing = loadedFrom w2 s.heapTop w2.listing := by rw [hl]
  have hexp : exported w1 "preEngineInit" = exported w2 "preEngineInit" := by
    funext p
    simp [exported, hpre]
  simp only [eventsOfNsInit_eq, eventsOfLoadMathLibrary_eq, mathInits_nsInitEvents,
    loadAttempts_nsInitEvents, created_nsInitEvents, initMessages_nsInitEvents,
    handed_nsInitEvents, newNsInit_eq]
  refine ⟨?_, ?_, ?_, trivial, by rw [hl], by rw [hL, hL2], by rw [hL, hL2], by rw [hL, hL2],
    by rw [hL, hL2, hexp]⟩
  · intro h
    unfold errors mathInits mathEvents
    rcases h with h | h
    · simp [h, errorOf, mathInitOf]
    · by_cases h0 : w1.loadLibrary MATH_LIB = 0
      · simp [h0, errorOf, mathInitOf]
      · simp [h0, h, errorOf, mathInitOf]
  · rintro ⟨h0, h1⟩
    unfold errors mathInits mathEvents
    simp [h0, h1, errorOf, mathInitOf]
  · exact nsInit_allBefore_cut2 _ _ w1 s (fun _ => rfl)
      (math_segment_none _ w1 math_not_discovery rfl)
      (fun e he => discovery_not_math e (discoveryEvents_steps w1 _ e he))
      (fun e he => override_not_math e (overrideEvents_steps w1 _ e he))
      (stage1_none _ w1 _ (stage_not_math _ (by decide)) rfl rfl)

/-- The sample world without a loadable support module logs the one error and
still hands `c.dll` its `preEngineInit` call, as the sample world does. -/
theorem support_module_failure_is_logged_once_and_plugins_proceed_witness :
    sampleWorldNoMath.listing = sampleWorld.listing
    ∧ sampleWorldNoMath.loadLibrary MATH_LIB = 0
    ∧ errors (eventsOfLoadMathLibrary sampleWorldNoMath (Loader.initial sampleWorld))
        = ["   Unable to load TorqueLib.dll! Some plugins may fail to load!"]
    ∧ handed (eventsOfNsInit sampleWorldNoMath (Loader.initial sampleWorld))
        = handed (eventsOfNsInit sampleWorld (Loader.initial sampleWorld))
    ∧ handed (eventsOfNsInit sampleWorld (Loader.initial sampleWorld))
        = [(0x20001000, { addr := 1, path := "plugins/c.dll" })] :=
  have h := support_module_failure_is_logged_once_and_plugins_proceed sampleWorldNoMath sampleWorld
    (Loader.initial sampleWorld) rfl
    (fun f => by
      have hne := plugin_path_ne_math f
      show (if PLUGIN_DIR ++ f = MATH_LIB then (0 : Nat)
        else sampleWorld.loadLibrary (PLUGIN_DIR ++ f)) = sampleWorld.loadLibrary (PLUGIN_DIR ++ f)
      exact if_neg hne)
    (fun _ => rfl)
  ⟨rfl, by decide, (h.1 (Or.inl (by decide))).1, h.2.2.2.2.2.2.2.2, by decide⟩

/-! ## Missing entry points -/

/-- C4: for a loaded list `p :: rest`, Stage 1 logs one warning, naming the path
and `preEngineInit`, for each plugin lacking that export and none for the
others, and calls exactly the `preEngineInit` entry points that exist, each with
its plugin's interface; Stage 2, run afterwards, looks `postEngineInit` up for
every plugin of the list, whether or not it had `preEngineInit`, and calls
exactly those that exist; and in a second world that differs from the first
only in what the module of `p` exports, the callbacks and warnings of the
plugins in `rest` are the same in both stages. -/
theorem missing_export_is_warned_and_blocks_nothing (w1 w2 : World) (s : Loader)
    (p : LoadedPlugin) (rest : List LoadedPlugin)
    (hs : s.loadedPlugins = p :: rest)
    (hrest : ∀ q ∈ rest, ∀ fn, w1.getProcAddress q.module fn = w2.getProcAddress q.module fn) :
    warnings (eventsOfPreInit w1 s) = s.loadedPlugins.filterMap (missing w1 "preEngineInit")
    ∧ handed (eventsOfPreInit w1 s) = s.loadedPlugins.filterMap (exported w1 "preEngineInit")
    ∧ lookupsOf "preEngineInit" (eventsOfPreInit w1 s) = s.loadedPlugins.map (fun q => q.module)
    ∧ lookupsOf "postEngineInit" (eventsOfPostInit w1 (pluginPreInit w1 s))
        = s.loadedPlugins.map (fun q => q.module)
    ∧ handed (eventsOfPostInit w1 (pluginPreInit w1 s))
        = s.loadedPlugins.filterMap (exported w1 "postEngineInit")
    ∧ warnings (eventsOfPostInit w1 (pluginPreInit w1 s))
        = s.loadedPlugins.filterMap (missing w1 "postEngineInit")
    ∧ handed (eventsOfPreInit w2 s)
        = (exported w2 "preEngineInit" p).toList ++ rest.filterMap (exported w1 "preEngineInit")
    ∧ handed (eventsOfPostInit w2 (pluginPreInit w2 s))
        = (exported w2 "postEngineInit" p).toList ++ rest.filterMap (exported w1 "postEngineInit")
    ∧ warnings (eventsOfPreInit w2 s)
        = (missing w2 "preEngineInit" p).toList ++ rest.filterMap (missing w1 "preEngineInit")
    ∧ warnings (eventsOfPostInit w2 (pluginPreInit w2 s))
        = (missing w2 "postEngineInit" p).toList ++ rest.filterMap (missing w1 "postEngineInit") := by
  have hl : ∀ w, (pluginPreInit w s).loadedPlugins = s.loadedPlugins := by
    intro w; rw [pluginPreInit_eq]
  have hex : ∀ fn, rest.filterMap (exported w2 fn) = rest.filterMap (exported w1 fn) := by
    intro fn
    apply List.filterMap_congr
    intro q hq
    simp [exported, hrest q hq fn]
  have hmi : ∀ fn, rest.filterMap (missing w2 fn) = rest.filterMap (missing w1 fn) := by
    intro fn
    apply List.filterMap_congr
    intro q hq
    simp [missing, hrest q hq fn]
  have hW : ∀ w banner fn ps, warnings (stageEvents w banner fn ps) = ps.filterMap (missing w fn) := by
    intro w banner fn ps
    unfold warnings
    rw [filterMap_stageEvents _ w _ _ _ rfl rfl, warnings_initEvents]
  have hH : ∀ w banner fn ps, handed (stageEvents w banner fn ps) = ps.filterMap (exported w fn) := by
    intro w banner fn ps
    unfold handed
    rw [filterMap_stageEvents _ w _ _ _ rfl rfl, handed_initEvents]
  have hK : ∀ w banner fn ps, lookupsOf fn (stageEvents w banner fn ps) = ps.map (fun q => q.module) := by
    intro w banner fn ps
    unfold lookupsOf
    rw [filterMap_stageEvents _ w _ _ _ rfl rfl, lookupsOf_initEvents]
  have hcons : ∀ {α : Type} (f : LoadedPlugin → Option α),
      (p :: rest).filterMap f = (f p).toList ++ rest.filterMap f := by
    intro α f
    rw [List.filterMap_cons]
    cases f p <;> rfl
  simp only [eventsOfPreInit_eq, eventsOfPostInit_eq, hl, hW, hH, hK]
  refine ⟨trivial, trivial, trivial, trivial, trivial, trivial, ?_, ?_, ?_, ?_⟩
  · rw [hs, hcons, hex]
  · rw [hs, hcons, hex]
  · rw [hs, hcons, hmi]
  · rw [hs, hcons, hmi]

/-- After `newNsInit` in the sample world the list is `a.dll`, `c.dll`; `a.dll`
lacks `preEngineInit`, gets the one Stage 1 warning and still has
`postEngineInit` called in Stage 2, and `c.dll` gets both callbacks whether or
not the module of `a.dll` exports anything. -/
theorem missing_export_is_warned_and_blocks_nothing_witness :
    warnings (eventsOfPreInit sampleWorld (newNsInit sampleWorld (Loader.initial sampleWorld)))
        = [["plugins/a.dll", "preEngineInit"]]
    ∧ handed (eventsOfPostInit sampleWorld (pluginPreInit sampleWorld
        (newNsInit sampleWorld (Loader.initial sampleWorld))))
        = [(0x10002000, { addr := 0, path := "plugins/a.dll" }),
            (0x20002000, { addr := 1, path := "plugins/c.dll" })]
    ∧ handed (eventsOfPostInit sampleWorldBareFirst (pluginPreInit sampleWorldBareFirst
        (newNsInit sampleWorld (Loader.initial sampleWorld))))
        = [(0x20002000, { addr := 1, path := "plugins/c.dll" })] :=
  have h := missing_export_is_warned_and_blocks_nothing sampleWorld sampleWorldBareFirst
    (newNsInit sampleWorld (Loader.initial sampleWorld))
    (LoadedPlugin.mk "plugins/a.dll" 0x10000000 (Win32PluginInterface.mk 0 "plugins/a.dll"))
    ([LoadedPlugin.mk "plugins/c.dll" 0x20000000 (Win32PluginInterface.mk 1 "plugins/c.dll")])
    (by decide)
    (fun q hq fn => by
      rw [List.mem_singleton] at hq
      subst hq
      simp [sampleWorldBareFirst])
  ⟨h.1.trans (by decide), h.2.2.2.2.1.trans (by decide), h.2.2.2.2.2.2.2.1.trans (by decide)⟩

/-! ## The names of the `Plugin::Loaded` flags -/

/-- C2 amended: let the listed files be named `stem.ext` with no `.` in `ext`
(the `*.dll` filter yields such names) and let the loaded list start empty.
Then Stage 1 sets no flag, `newParticleInit` returns, and the boolean variables
it sets are exactly, in listing order, one per file whose load succeeded, named
`Plugin::Loaded` followed by `plugins/` and the stem, each set to true; a listed
file whose load failed gets no flag, provided no loaded file shares its stem. -/
theorem loaded_flags_are_named_after_path_without_extension (w : World) (s : Loader)
    (names : List (String × String))
    (hl : w.listing = names.map fileName)
    (hext : ∀ n ∈ names, '.' ∉ n.2.data)
    (hs : s.loadedPlugins = []) :
    flagsSet (eventsOfNsInit w s) = []
    ∧ newParticleInit w (newNsInit w s) = .ok (finalState (newParticleInit w (newNsInit w s)))
    ∧ flagsSet (eventsOfParticleInit w (newNsInit w s))
        = (names.filter (fun n => w.loadLibrary (PLUGIN_DIR ++ fileName n) ≠ 0)).map flagFor
    ∧ (∀ n ∈ names, w.loadLibrary (PLUGIN_DIR ++ fileName n) = 0 →
        (∀ m ∈ names, w.loadLibrary (PLUGIN_DIR ++ fileName m) ≠ 0 → m.1 ≠ n.1) →
        flagFor n ∉ flagsSet (eventsOfParticleInit w (newNsInit w s))) := by
  have hlp : (newNsInit w s).loadedPlugins = loadedFrom w s.heapTop (names.map fileName) := by
    rw [newNsInit_eq, hs, hl]; rfl
  have hflags : flagsSet (eventsOfParticleInit w (newNsInit w s))
      = (names.filter (fun n => w.loadLibrary (PLUGIN_DIR ++ fileName n) ≠ 0)).map flagFor := by
    rw [eventsOfParticleInit_eq]
    unfold flagsSet particleInitEvents
    rw [List.filterMap_cons, List.filterMap_append, filterMap_stageEvents _ w _ _ _ rfl rfl,
      filterMap_initEvents _ w _ _ (flagOf_stage _), hlp,
      flagEvents_loadedFrom w names hext]
    simp [flagOf]
  refine ⟨?_, ?_, hflags, ?_⟩
  · rw [eventsOfNsInit_eq]
    unfold flagsSet
    rw [filterMap_nsInitEvents _ w s flagOf_math flagOf_discovery flagOf_override (fun _ => rfl),
      filterMap_initEvents _ w _ _ (flagOf_stage _)]
    simp [flagOf]
  · unfold newParticleInit setPluginVariables
    have hl2 : (pluginPostInit w ((newNsInit w s).emit
        (.originalParticleInit (newNsInit w s).originalParticleInit))).loadedPlugins
        = loadedFrom w s.heapTop (names.map fileName) := by
      rw [pluginPostInit_eq]; exact hlp
    exact setPluginVariablesLoop_ok _ _ (by rw [hl2]; exact loadedFrom_has_dot w names _)
  · intro n _ hfail hstem hmem
    rw [hflags] at hmem
    obtain ⟨m, hm, hmn⟩ := List.mem_map.mp hmem
    rw [List.mem_filter] at hm
    exact hstem m hm.1 (by simpa using hm.2) (flagFor_injective m n hmn)

/-- In the world listing the single loadable file `foo.dll` the one flag set is
`Plugin::Loadedplugins/foo`. -/
theorem loaded_flags_are_named_after_path_without_extension_witness :
    fooWorld.listing = [("foo", "dll")].map fileName
    ∧ (∀ n ∈ [(("foo", "dll") : String × String)], '.' ∉ n.2.data)
    ∧ (Loader.initial fooWorld).loadedPlugins = []
    ∧ flagsSet (eventsOfParticleInit fooWorld (newNsInit fooWorld (Loader.initial fooWorld)))
        = [("Plugin::Loadedplugins/foo", true)] :=
  have h1 : fooWorld.listing = [("foo", "dll")].map fileName := by decide
  have h2 : ∀ n ∈ [(("foo", "dll") : String × String)], '.' ∉ n.2.data := by decide
  have h := loaded_flags_are_named_after_path_without_extension fooWorld (Loader.initial fooWorld)
    [("foo", "dll")] h1 h2 rfl
  ⟨h1, h2, rfl, h.2.2.1.trans (by decide)⟩

end PluginLoader
